import Mathlib

/-!
# Verification of the AliasVault rust core against its specification

Shallow embedding of the four core subsystems (SRP, vault merge, vault
pruner, credential matcher) of the repository's rust sources, together
with proofs settling the frozen claims.

Conventions:
* Rust `u8`/byte buffers are `List Nat` with values `< 256`.
* Machine words are `Nat` with explicit reduction `% 2^32`.
* `serde_json::Value` is the inductive `JsonValue`; `Record` is an
  association list from column name to value (the Rust `HashMap`).
* Fallible Rust functions return `Except` / `Option`.
-/

set_option maxRecDepth 10000

/-! ## SHA-256 (pure model of the `sha2` crate used by `srp/mod.rs`)

Standard FIPS 180-4 SHA-256 over byte lists, executable so that the
known-answer vectors of the source test-suite can be checked by
kernel reduction. -/

namespace Sha256

/-- Reduce to a 32-bit word. -/
def wmask (x : Nat) : Nat := x % 4294967296

/-- The 32-bit addition. -/
def wadd (a b : Nat) : Nat := (a + b) % 4294967296

/-- Bitwise complement of a 32-bit word (inputs are kept `< 2^32`). -/
def wnot (x : Nat) : Nat := 4294967295 - x

/-- Rotate a 32-bit word right by n bits. -/
def rotr (n x : Nat) : Nat := ((x >>> n) ||| (x <<< (32 - n))) % 4294967296

/-- Logical right shift of a 32-bit word. -/
def shr (n x : Nat) : Nat := x >>> n

def smallSigma0 (x : Nat) : Nat := (rotr 7 x) ^^^ (rotr 18 x) ^^^ (shr 3 x)
def smallSigma1 (x : Nat) : Nat := (rotr 17 x) ^^^ (rotr 19 x) ^^^ (shr 10 x)
def bigSigma0 (x : Nat) : Nat := (rotr 2 x) ^^^ (rotr 13 x) ^^^ (rotr 22 x)
def bigSigma1 (x : Nat) : Nat := (rotr 6 x) ^^^ (rotr 11 x) ^^^ (rotr 25 x)

def ch (x y z : Nat) : Nat := (x &&& y) ^^^ ((wnot x) &&& z)
def maj (x y z : Nat) : Nat := (x &&& y) ^^^ (x &&& z) ^^^ (y &&& z)

/-- The sixty-four round constants of FIPS 180-4, written in decimal. -/
def K : List Nat :=
  [1116352408, 1899447441, 3049323471, 3921009573, 961987163, 1508970993, 2453635748, 2870763221,
   3624381080, 310598401, 607225278, 1426881987, 1925078388, 2162078206, 2614888103, 3248222580,
   3835390401, 4022224774, 264347078, 604807628, 770255983, 1249150122, 1555081692, 1996064986,
   2554220882, 2821834349, 2952996808, 3210313671, 3336571891, 3584528711, 113926993, 338241895,
   666307205, 773529912, 1294757372, 1396182291, 1695183700, 1986661051, 2177026350, 2456956037,
   2730485921, 2820302411, 3259730800, 3345764771, 3516065817, 3600352804, 4094571909, 275423344,
   430227734, 506948616, 659060556, 883997877, 958139571, 1322822218, 1537002063, 1747873779,
   1955562222, 2024104815, 2227730452, 2361852424, 2428436474, 2756734187, 3204031479, 3329325298]

/-- The initial hash state of FIPS 180-4, written in decimal. -/
def H0 : List Nat :=
  [1779033703, 3144134277, 1013904242, 2773480762, 1359893119, 2600822924, 528734635, 1541459225]

/-- Big-endian 8-byte encoding of a number (for the length field). -/
def lenBytes (n : Nat) : List Nat :=
  [(n >>> 56) % 256, (n >>> 48) % 256, (n >>> 40) % 256, (n >>> 32) % 256,
   (n >>> 24) % 256, (n >>> 16) % 256, (n >>> 8) % 256, n % 256]

/-- Append FIPS 180-4 padding to a message. -/
def padMessage (msg : List Nat) : List Nat :=
  let l := msg.length
  let zeros := (64 - ((l + 9) % 64)) % 64
  msg ++ [0x80] ++ List.replicate zeros 0 ++ lenBytes (8 * l)

/-- Split a padded message into 64-byte blocks (structural fuel recursion so
that the kernel can evaluate it; the fuel is the message length, which bounds
the number of blocks). -/
def toBlocksAux : Nat → List Nat → List (List Nat)
  | 0, _ => []
  | fuel + 1, msg =>
    if msg.isEmpty then [] else msg.take 64 :: toBlocksAux fuel (msg.drop 64)

def toBlocks (msg : List Nat) : List (List Nat) :=
  toBlocksAux msg.length msg

/-- First 16 message-schedule words of a 64-byte block (big endian). -/
def blockWords (block : List Nat) : List Nat :=
  (List.range 16).map fun i =>
    (block.getD (4*i) 0) <<< 24 + (block.getD (4*i+1) 0) <<< 16 +
    (block.getD (4*i+2) 0) <<< 8 + block.getD (4*i+3) 0

/-- Extend the message schedule from 16 to 64 words. -/
def extendWords (w : List Nat) : Nat → List Nat
  | 0 => w
  | n + 1 =>
    let t := w.length
    let next := wadd (wadd (smallSigma1 (w.getD (t-2) 0)) (w.getD (t-7) 0))
                     (wadd (smallSigma0 (w.getD (t-15) 0)) (w.getD (t-16) 0))
    extendWords (w ++ [next]) n

/-- One round of the compression function. -/
def round (st : List Nat) (kw : Nat × Nat) : List Nat :=
  match st with
  | [a, b, c, d, e, f, g, h] =>
    let t1 := wadd (wadd (wadd h (bigSigma1 e)) (wadd (ch e f g) kw.1)) kw.2
    let t2 := wadd (bigSigma0 a) (maj a b c)
    [wadd t1 t2, a, b, c, wadd d t1, e, f, g]
  | st => st

/-- Compress one block into the running state. -/
def compress (st : List Nat) (block : List Nat) : List Nat :=
  let w := extendWords (blockWords block) 48
  let out := (K.zip w).foldl round st
  (st.zip out).map fun p => wadd p.1 p.2

/-- Big-endian bytes of a 32-bit word. -/
def wordBytes (x : Nat) : List Nat :=
  [(x >>> 24) % 256, (x >>> 16) % 256, (x >>> 8) % 256, x % 256]

end Sha256

/-- SHA-256 digest (32 bytes) of a byte list. -/
def sha256 (msg : List Nat) : List Nat :=
  ((Sha256.toBlocks (Sha256.padMessage msg)).foldl Sha256.compress Sha256.H0).flatMap
    Sha256.wordBytes

/-! ## JSON values and records

`serde_json::Value` as an inductive type.  JSON numbers are modelled as
integers (`Int`): no claim involves non-integral numbers, and
`serde_json`'s `as_i64` returns `Some` exactly on integer-represented
numbers in range. -/

inductive JsonValue where
  | null
  | bool (b : Bool)
  | num (n : Int)
  | str (s : String)
  | arr (elems : List JsonValue)
  | obj (fields : List (String × JsonValue))

/-- Source `Value::as_str`. -/
def JsonValue.asStr : JsonValue → Option String
  | .str s => some s
  | _ => none

/-- Source `Value::as_i64` (numbers are modelled as integers, assumed in `i64` range). -/
def JsonValue.asI64 : JsonValue → Option Int
  | .num n => some n
  | _ => none

/-- Source `Value::as_bool`. -/
def JsonValue.asBool : JsonValue → Option Bool
  | .bool b => some b
  | _ => none

/-- Source `Value::is_null`. -/
def JsonValue.isNull : JsonValue → Bool
  | .null => true
  | _ => false

/-- A record (`HashMap<String, serde_json::Value>` in the source) as an
association list.  The `HashMap` invariant is that keys are distinct;
theorems that depend on it take a `Nodup` hypothesis. -/
abbrev VRecord := List (String × JsonValue)

/-- Source `HashMap::get` (first binding of the key). -/
def recordGet (r : VRecord) (k : String) : Option JsonValue :=
  (r.find? (fun p => p.1 == k)).map (fun p => p.2)

/-- The record's column names (`HashMap::keys`). -/
def recordKeys (r : VRecord) : List String := r.map (fun p => p.1)

/-- Source `HashMap::is_empty`. -/
def recordIsEmpty (r : VRecord) : Bool := r.isEmpty

/-! ## Datetimes (model of the `chrono` parsing and formatting used by
`vault_merge/mod.rs` and `vault_pruner/mod.rs`)

An instant (`DateTime<Utc>`) is the number of nanoseconds since the Unix
epoch, as an `Int`; comparison of instants is integer comparison and
`Duration::days(n)` is exactly `n * 86_400 * 10^9` nanoseconds, matching
`chrono`.  Civil-date conversions use the standard era-based algorithms.
Leap seconds (`ss = 60`) and years outside 4 digits are not modelled:
no claim involves them. -/

namespace Datetime

def nanosPerDay : Int := 86400000000000

def nanosPerSec : Int := 1000000000

/-- Days from the civil epoch 1970-01-01 (floor-division based). -/
def daysFromCivil (y m d : Int) : Int :=
  let y' := if m ≤ 2 then y - 1 else y
  let era := Int.fdiv y' 400
  let yoe := y' - era * 400
  let mp := if m > 2 then m - 3 else m + 9
  let doy := Int.fdiv (153 * mp + 2) 5 + d - 1
  let doe := yoe * 365 + Int.fdiv yoe 4 - Int.fdiv yoe 100 + doy
  era * 146097 + doe - 719468

/-- Civil date (year, month, day) of a day count since 1970-01-01. -/
def civilFromDays (z : Int) : Int × Int × Int :=
  let z' := z + 719468
  let era := Int.fdiv z' 146097
  let doe := z' - era * 146097
  let yoe := Int.fdiv (doe - Int.fdiv doe 1460 + Int.fdiv doe 36524 - Int.fdiv doe 146096) 365
  let y := yoe + era * 400
  let doy := doe - (365 * yoe + Int.fdiv yoe 4 - Int.fdiv yoe 100)
  let mp := Int.fdiv (5 * doy + 2) 153
  let d := doy - Int.fdiv (153 * mp + 2) 5 + 1
  let m := if mp < 10 then mp + 3 else mp - 9
  (if m ≤ 2 then y + 1 else y, m, d)

def isLeapYear (y : Nat) : Bool := y % 4 == 0 && (y % 100 != 0 || y % 400 == 0)

def daysInMonth (y m : Nat) : Nat :=
  if m == 2 then (if isLeapYear y then 29 else 28)
  else if m == 4 || m == 6 || m == 9 || m == 11 then 30
  else 31

def digitVal (c : Char) : Nat := c.toNat - 48

def natOfDigits (cs : List Char) : Nat := cs.foldl (fun a c => 10 * a + digitVal c) 0

/-- Read exactly `n` decimal digits. -/
def readFixedNat (n : Nat) (cs : List Char) : Option (Nat × List Char) :=
  let pre := cs.take n
  if pre.length == n && pre.all Char.isDigit then some (natOfDigits pre, cs.drop n)
  else none

/-- Expect a specific character. -/
def expectChar (c : Char) : List Char → Option (List Char)
  | [] => none
  | x :: xs => if x == c then some xs else none

/-- Optional fractional part: either absent, or a dot followed by at least one
digit; `chrono` uses the first nine digits as nanoseconds. -/
def readFrac (cs : List Char) : Option (Nat × List Char) :=
  match cs with
  | '.' :: rest =>
    let ds := rest.takeWhile Char.isDigit
    if ds.isEmpty then none
    else
      let taken := ds.take 9
      some (natOfDigits taken * 10 ^ (9 - taken.length), rest.drop ds.length)
  | _ => some (0, cs)

/-- Offset: `Z`/`z` or `±HH:MM`, in seconds. -/
def readOffset (cs : List Char) : Option (Int × List Char) :=
  match cs with
  | 'Z' :: rest => some (0, rest)
  | 'z' :: rest => some (0, rest)
  | '+' :: rest => readOffsetHM rest 1
  | '-' :: rest => readOffsetHM rest (-1)
  | _ => none
where
  readOffsetHM (cs : List Char) (sign : Int) : Option (Int × List Char) := do
    let (hh, cs) ← readFixedNat 2 cs
    let cs ← expectChar ':' cs
    let (mm, cs) ← readFixedNat 2 cs
    if hh ≤ 23 && mm ≤ 59 then some (sign * (hh * 3600 + mm * 60), cs) else none

/-- Range validation, as performed by `chrono` when resolving parsed fields. -/
def validCivil (y mo d hh mi ss : Nat) : Bool :=
  1 ≤ mo && mo ≤ 12 && 1 ≤ d && d ≤ daysInMonth y mo && hh ≤ 23 && mi ≤ 59 && ss ≤ 59

/-- Nanoseconds since epoch of a civil UTC date-time. -/
def civilNanos (y mo d hh mi ss nano : Nat) : Int :=
  daysFromCivil (Int.ofNat y) (Int.ofNat mo) (Int.ofNat d) * nanosPerDay +
    Int.ofNat ((hh * 3600 + mi * 60 + ss) * 1000000000 + nano)

/-- One separator character from the allowed set. -/
def readSep (sep : List Char) : List Char → Option (List Char)
  | [] => none
  | c :: cs => if sep.contains c then some cs else none

/-- Source `YYYY-MM-DD`. -/
def readDatePart (cs : List Char) : Option (Nat × Nat × Nat × List Char) :=
  match readFixedNat 4 cs with
  | none => none
  | some (y, cs1) =>
    match expectChar '-' cs1 with
    | none => none
    | some cs2 =>
      match readFixedNat 2 cs2 with
      | none => none
      | some (mo, cs3) =>
        match expectChar '-' cs3 with
        | none => none
        | some cs4 =>
          match readFixedNat 2 cs4 with
          | none => none
          | some (d, cs5) => some (y, mo, d, cs5)

/-- Source `HH:MM:SS[.frac]`. -/
def readTimePart (cs : List Char) : Option (Nat × Nat × Nat × Nat × List Char) :=
  match readFixedNat 2 cs with
  | none => none
  | some (hh, cs1) =>
    match expectChar ':' cs1 with
    | none => none
    | some cs2 =>
      match readFixedNat 2 cs2 with
      | none => none
      | some (mi, cs3) =>
        match expectChar ':' cs3 with
        | none => none
        | some cs4 =>
          match readFixedNat 2 cs4 with
          | none => none
          | some (ss, cs5) =>
            match readFrac cs5 with
            | none => none
            | some (nano, cs6) => some (hh, mi, ss, nano, cs6)

/-- Shared date-time core `YYYY-MM-DD<sep>HH:MM:SS[.frac]`; validates ranges
like `chrono` does. -/
def readCivil (sep : List Char) (cs : List Char) : Option (Int × List Char) :=
  match readDatePart cs with
  | none => none
  | some (y, mo, d, cs1) =>
    match readSep sep cs1 with
    | none => none
    | some cs2 =>
      match readTimePart cs2 with
      | none => none
      | some (hh, mi, ss, nano, cs3) =>
        if validCivil y mo d hh mi ss then some (civilNanos y mo d hh mi ss nano, cs3)
        else none

/-- Source `DateTime::parse_from_rfc3339` converted to UTC. -/
def parseRfc3339 (s : String) : Option Int := do
  let (t, cs) ← readCivil ['T', 't', ' '] s.toList
  let (off, cs) ← readOffset cs
  if cs.isEmpty then some (t - off * nanosPerSec) else none

/-- Source `NaiveDateTime::parse_from_str(s, "%Y-%m-%d %H:%M:%S%.f").and_utc()`. -/
def parseSqliteFormat (s : String) : Option Int := do
  let (t, cs) ← readCivil [' '] s.toList
  if cs.isEmpty then some t else none

/-- The tolerant timestamp parser shared by the merge and pruner modules:
RFC 3339 first, then the SQLite textual form. -/
def parseDatetime (s : String) : Option Int :=
  (parseRfc3339 s).orElse (fun _ => parseSqliteFormat s)

def padNum (width n : Nat) : String :=
  let s := toString n
  String.mk (List.replicate (width - s.length) '0') ++ s

/-- Source `format("%Y-%m-%dT%H:%M:%S%.3fZ")` of an instant (4-digit years). -/
def formatMillisZ (t : Int) : String :=
  let days := Int.fdiv t nanosPerDay
  let nanoOfDay := (Int.emod t nanosPerDay).toNat
  let ymd := civilFromDays days
  let secOfDay := nanoOfDay / 1000000000
  let millis := nanoOfDay % 1000000000 / 1000000
  padNum 4 ymd.1.toNat ++ "-" ++ padNum 2 ymd.2.1.toNat ++ "-" ++ padNum 2 ymd.2.2.toNat ++
    "T" ++ padNum 2 (secOfDay / 3600) ++ ":" ++ padNum 2 (secOfDay % 3600 / 60) ++ ":" ++
    padNum 2 (secOfDay % 60) ++ "." ++ padNum 3 millis ++ "Z"

end Datetime

/-! ## Error taxonomy (`error.rs`) -/

inductive VaultError where
  | JsonError (msg : String)
  | General (msg : String)

/-! ## Vault merge (`vault_merge/mod.rs`, table list from
`shared/rust-core/src/types.rs`) -/

structure SqlStatement where
  sql : String
  params : List JsonValue

structure TableData where
  name : String
  records : List VRecord

structure MergeInput where
  local_tables : List TableData
  server_tables : List TableData

structure MergeStats where
  tables_processed : Nat := 0
  records_from_local : Nat := 0
  records_from_server : Nat := 0
  records_created_locally : Nat := 0
  conflicts : Nat := 0
  records_inserted : Nat := 0

structure MergeOutput where
  success : Bool
  statements : List SqlStatement
  stats : MergeStats

/-- Source `get_record_id`. -/
def getRecordId (record : VRecord) : Option String :=
  (recordGet record "Id").bind JsonValue.asStr

/-- Source `get_updated_at`: the `UpdatedAt` column as a string, parsed tolerantly
(RFC 3339, then SQLite format). -/
def getUpdatedAt (record : VRecord) : Option Int :=
  ((recordGet record "UpdatedAt").bind JsonValue.asStr).bind Datetime.parseDatetime

/-- Source `get_composite_key`: column values joined with ":", missing / non-string
values contributing "". -/
def getCompositeKey (record : VRecord) (keyColumns : List String) : String :=
  String.intercalate ":" (keyColumns.map (fun col =>
    ((recordGet record col).bind JsonValue.asStr).getD ""))

/-- Lexicographic order on char lists by code point (Rust's `Ord` on `String`
compares bytes; on ASCII column names the two coincide). -/
def strLebAux : List Char → List Char → Bool
  | [], _ => true
  | _ :: _, [] => false
  | c :: cs, d :: ds =>
    if c.toNat < d.toNat then true
    else if d.toNat < c.toNat then false
    else strLebAux cs ds

def strLeb (a b : String) : Bool := strLebAux a.toList b.toList

/-- Stable insertion into a sorted list. -/
def insertSorted (x : String) : List String → List String
  | [] => [x]
  | y :: ys => if strLeb x y then x :: y :: ys else y :: insertSorted x ys

/-- Source `columns.sort()` (stable sort, lexicographic ascending). -/
def sortStr (l : List String) : List String := l.foldr insertSorted []

/-- Source `generate_insert_sql`. -/
def generateInsertSql (tableName : String) (record : VRecord) : Option SqlStatement :=
  if recordIsEmpty record then none
  else
    let columns := sortStr (recordKeys record)
    let columnList := String.intercalate ", " columns
    let placeholders := String.intercalate ", " (columns.map (fun _ => "?"))
    let params := columns.map (fun c => (recordGet record c).getD JsonValue.null)
    some { sql := "INSERT OR REPLACE INTO " ++ tableName ++ " (" ++ columnList ++
                  ") VALUES (" ++ placeholders ++ ")",
           params := params }

/-- Source `generate_update_sql`: sets every column except `Id` (sorted ascending),
`WHERE Id = ?` with the given id as last parameter. -/
def generateUpdateSql (tableName : String) (record : VRecord) (id : String) :
    Option SqlStatement :=
  if recordIsEmpty record then none
  else
    let columns := sortStr ((recordKeys record).filter (fun c => c != "Id"))
    if columns.isEmpty then none
    else
      let setClause := String.intercalate ", " (columns.map (fun c => c ++ " = ?"))
      let params := columns.map (fun c => (recordGet record c).getD JsonValue.null) ++
                    [JsonValue.str id]
      some { sql := "UPDATE " ++ tableName ++ " SET " ++ setClause ++ " WHERE Id = ?",
             params := params }

/-- The server-record lookup map (`HashMap<String, &Record>`), as an
association list with replace-on-insert; iteration order of leftovers is the
model's insertion order (the Rust `HashMap` iteration order is unspecified,
and no claim depends on it). -/
abbrev RecMap := List (String × VRecord)

def mapGet (m : RecMap) (k : String) : Option VRecord :=
  (m.find? (fun p => p.1 == k)).map (fun p => p.2)

def mapInsert (m : RecMap) (k : String) (v : VRecord) : RecMap :=
  if m.any (fun p => p.1 == k) then
    m.map (fun p => if p.1 == k then (k, v) else p)
  else m ++ [(k, v)]

def mapRemove (m : RecMap) (k : String) : RecMap :=
  m.filter (fun p => p.1 != k)

/-- The LWW comparison of the source's
`match (server_ts, local_ts) { (Some(s), Some(l)) if s > l => server wins, _ => local wins }`:
`true` iff both timestamps parsed and the server one is strictly greater. -/
def serverWins : Option Int → Option Int → Bool
  | some sTs, some lTs => decide (lTs < sTs)
  | _, _ => false

/-- Rust `Option<DateTime>` strict `>` (with `None` below every `Some`),
used when deduplicating server records by composite key. -/
def optTsGt : Option Int → Option Int → Bool
  | some a, some b => decide (b < a)
  | some _, none => true
  | none, _ => false

structure MergeAcc where
  statements : List SqlStatement
  stats : MergeStats
  serverMap : RecMap

/-- Body of the `for local_record in local_records` loop of `merge_table_by_id`. -/
def mergeByIdStep (tableName : String) (acc : MergeAcc) (localRecord : VRecord) :
    MergeAcc :=
  match getRecordId localRecord with
  | none => acc
  | some localId =>
    match mapGet acc.serverMap localId with
    | some serverRecord =>
      let rest := mapRemove acc.serverMap localId
      if serverWins (getUpdatedAt serverRecord) (getUpdatedAt localRecord) then
        { statements :=
            acc.statements ++ (generateUpdateSql tableName serverRecord localId).toList
          stats :=
            { acc.stats with
              conflicts := acc.stats.conflicts + 1
              records_from_server := acc.stats.records_from_server + 1 }
          serverMap := rest }
      else
        { acc with
          stats := { acc.stats with records_from_local := acc.stats.records_from_local + 1 }
          serverMap := rest }
    | none =>
      { acc with
        stats :=
          { acc.stats with
            records_created_locally := acc.stats.records_created_locally + 1 } }

/-- The server map of `merge_table_by_id` (records without a string `Id` are
skipped; duplicate ids: last record wins, as with `HashMap::insert`). -/
def buildServerMapById (records : List VRecord) : RecMap :=
  records.foldl (fun m r =>
    match getRecordId r with
    | some id => mapInsert m id r
    | none => m) []

/-- Leftover server-only records: `records_inserted` is incremented for each,
a statement is pushed when `generate_insert_sql` returns one. -/
def insertLeftover (tableName : String) (start : List SqlStatement × MergeStats)
    (m : RecMap) : List SqlStatement × MergeStats :=
  m.foldl (fun acc kv =>
    (acc.1 ++ (generateInsertSql tableName kv.2).toList,
     { acc.2 with records_inserted := acc.2.records_inserted + 1 })) start

/-- Source `merge_table_by_id`. -/
def mergeTableById (tableName : String) (localRecords serverRecords : List VRecord)
    (stats : MergeStats) : List SqlStatement × MergeStats :=
  let acc := localRecords.foldl (mergeByIdStep tableName)
    { statements := [], stats := stats, serverMap := buildServerMapById serverRecords }
  insertLeftover tableName (acc.statements, acc.stats) acc.serverMap

/-- Body of the server-map-building loop of `merge_table_by_composite_key`:
on a duplicate composite key the record with the strictly greater
`UpdatedAt` (Rust `Option` order) replaces the kept one. -/
def compositeDedupStep (keyColumns : List String) (m : RecMap) (r : VRecord) : RecMap :=
  let key := getCompositeKey r keyColumns
  match mapGet m key with
  | some existing =>
    if optTsGt (getUpdatedAt r) (getUpdatedAt existing) then mapInsert m key r else m
  | none => mapInsert m key r

/-- The server map of `merge_table_by_composite_key`. -/
def buildServerMapByCompositeKey (records : List VRecord) (keyColumns : List String) :
    RecMap :=
  records.foldl (compositeDedupStep keyColumns) []

/-- Body of the `for local_record in local_records` loop of
`merge_table_by_composite_key`: matching is by composite key but the UPDATE
uses the local record's `Id`. -/
def mergeByCompositeStep (tableName : String) (keyColumns : List String)
    (acc : MergeAcc) (localRecord : VRecord) : MergeAcc :=
  let compositeKey := getCompositeKey localRecord keyColumns
  match getRecordId localRecord with
  | none => acc
  | some localId =>
    match mapGet acc.serverMap compositeKey with
    | some serverRecord =>
      let rest := mapRemove acc.serverMap compositeKey
      if serverWins (getUpdatedAt serverRecord) (getUpdatedAt localRecord) then
        { statements :=
            acc.statements ++ (generateUpdateSql tableName serverRecord localId).toList
          stats :=
            { acc.stats with
              conflicts := acc.stats.conflicts + 1
              records_from_server := acc.stats.records_from_server + 1 }
          serverMap := rest }
      else
        { acc with
          stats := { acc.stats with records_from_local := acc.stats.records_from_local + 1 }
          serverMap := rest }
    | none =>
      { acc with
        stats :=
          { acc.stats with
            records_created_locally := acc.stats.records_created_locally + 1 } }

/-- Source `merge_table_by_composite_key`. -/
def mergeTableByCompositeKey (tableName : String)
    (localRecords serverRecords : List VRecord) (keyColumns : List String)
    (stats : MergeStats) : List SqlStatement × MergeStats :=
  let acc := localRecords.foldl (mergeByCompositeStep tableName keyColumns)
    { statements := [], stats := stats,
      serverMap := buildServerMapByCompositeKey serverRecords keyColumns }
  insertLeftover tableName (acc.statements, acc.stats) acc.serverMap

/-- Source `TableConfig` from `shared/rust-core/src/types.rs`. -/
structure TableConfig where
  name : String
  composite_key_columns : List String

def TableConfig.usesCompositeKey (c : TableConfig) : Bool :=
  !c.composite_key_columns.isEmpty

/-- Source `SYNCABLE_TABLES` (`shared/rust-core/src/types.rs`): only `FieldValues`
has a composite key. -/
def SYNCABLE_TABLES : List TableConfig :=
  [⟨"Items", []⟩,
   ⟨"FieldValues", ["ItemId", "FieldKey"]⟩,
   ⟨"Folders", []⟩,
   ⟨"Tags", []⟩,
   ⟨"ItemTags", []⟩,
   ⟨"Attachments", []⟩,
   ⟨"TotpCodes", []⟩,
   ⟨"Passkeys", []⟩,
   ⟨"FieldDefinitions", []⟩,
   ⟨"FieldHistories", []⟩,
   ⟨"Logos", []⟩]

/-- Table lookup through the `HashMap<&str, &TableData>` built by
`iter().collect()`: on duplicate table names the later entry wins. -/
def lookupTable (tables : List TableData) (name : String) : Option TableData :=
  tables.foldl (fun acc t => if t.name == name then some t else acc) none

/-- One iteration of the `for table_config in SYNCABLE_TABLES` loop of
`merge_vaults`. -/
def mergeOneTable (input : MergeInput) (acc : List SqlStatement × MergeStats)
    (cfg : TableConfig) : List SqlStatement × MergeStats :=
  match lookupTable input.local_tables cfg.name, lookupTable input.server_tables cfg.name with
  | some l, some s =>
    let res :=
      if cfg.usesCompositeKey then
        mergeTableByCompositeKey cfg.name l.records s.records cfg.composite_key_columns acc.2
      else
        mergeTableById cfg.name l.records s.records acc.2
    (acc.1 ++ res.1, { res.2 with tables_processed := res.2.tables_processed + 1 })
  | some l, none =>
    (acc.1, { acc.2 with
              records_created_locally := acc.2.records_created_locally + l.records.length })
  | none, some s =>
    let res := s.records.foldl (fun a r =>
      match generateInsertSql cfg.name r with
      | some stmt => (a.1 ++ [stmt], { a.2 with records_inserted := a.2.records_inserted + 1 })
      | none => a) acc
    (res.1, { res.2 with tables_processed := res.2.tables_processed + 1 })
  | none, none => acc

/-- Source `merge_vaults`. -/
def mergeVaults (input : MergeInput) : Except VaultError MergeOutput :=
  let out := SYNCABLE_TABLES.foldl (mergeOneTable input) ([], {})
  .ok { success := true, statements := out.1, stats := out.2 }

/-! ## Vault pruner (`vault_pruner/mod.rs`) -/

structure PruneInput where
  tables : List TableData
  current_time : String
  retention_days : Nat

structure PruneStats where
  items_pruned : Nat := 0
  field_values_pruned : Nat := 0
  attachments_pruned : Nat := 0
  totp_codes_pruned : Nat := 0
  passkeys_pruned : Nat := 0

structure PruneOutput where
  success : Bool
  statements : List SqlStatement
  stats : PruneStats

/-- Source `input.tables.iter().find(|t| t.name == name)` (first match). -/
def findTable (tables : List TableData) (name : String) : Option TableData :=
  tables.find? (fun t => t.name == name)

/-- The `IsDeleted` skip test of `prune_vault`: present and truthy
(`as_i64() == Some(1)` or `as_bool() == Some(true)`). -/
def isDeletedTruthy (item : VRecord) : Bool :=
  match recordGet item "IsDeleted" with
  | some v => v.asI64 == some 1 || v.asBool == some true
  | none => false

/-- Decides whether one `Items` record contributes to `expired_item_ids`
(the body of the first loop of `prune_vault`), returning its `Id`. -/
def expiredItemId (cutoffDate : Int) (item : VRecord) : Option String :=
  if isDeletedTruthy item then none
  else
    match recordGet item "DeletedAt" with
    | none => none
    | some deletedAt =>
      if deletedAt.isNull then none
      else
        match deletedAt.asStr with
        | none => none
        | some deletedAtStr =>
          match Datetime.parseDatetime deletedAtStr with
          | none => none
          | some deletedDate =>
            if deletedDate < cutoffDate then
              (recordGet item "Id").bind JsonValue.asStr
            else none

/-- Source `count_related_records`: records whose `fk_column` equals `fk_value` as a
string and whose `IsDeleted` is not truthy. -/
def countRelatedRecords (records : List VRecord) (fkColumn fkValue : String) : Nat :=
  (records.filter (fun r =>
    let fkMatches := match (recordGet r fkColumn).bind JsonValue.asStr with
      | some v => v == fkValue
      | none => false
    let notDeleted := match recordGet r "IsDeleted" with
      | some v => v.asI64 != some 1 && v.asBool != some true
      | none => true
    fkMatches && notDeleted)).length

/-- The per-child-table block of the `for item_id in &expired_item_ids` loop:
if the table is present and has related non-deleted records, push its UPDATE
and add to the corresponding counter. -/
def pruneChildTable (tables : List TableData) (tableName nowStr itemId : String) :
    List SqlStatement × Nat :=
  match findTable tables tableName with
  | none => ([], 0)
  | some t =>
    let relatedCount := countRelatedRecords t.records "ItemId" itemId
    if relatedCount > 0 then
      ([{ sql := "UPDATE " ++ tableName ++
              " SET IsDeleted = 1, UpdatedAt = ? WHERE ItemId = ? AND IsDeleted = 0",
          params := [JsonValue.str nowStr, JsonValue.str itemId] }],
       relatedCount)
    else ([], 0)

/-- One iteration of the `for item_id in &expired_item_ids` loop. -/
def pruneOneItem (tables : List TableData) (nowStr : String)
    (acc : List SqlStatement × PruneStats) (itemId : String) :
    List SqlStatement × PruneStats :=
  let itemStmt : SqlStatement :=
    { sql := "UPDATE Items SET IsDeleted = 1, UpdatedAt = ? WHERE Id = ?"
      params := [JsonValue.str nowStr, JsonValue.str itemId] }
  let fv := pruneChildTable tables "FieldValues" nowStr itemId
  let att := pruneChildTable tables "Attachments" nowStr itemId
  let totp := pruneChildTable tables "TotpCodes" nowStr itemId
  let pk := pruneChildTable tables "Passkeys" nowStr itemId
  (acc.1 ++ [itemStmt] ++ fv.1 ++ att.1 ++ totp.1 ++ pk.1,
   { items_pruned := acc.2.items_pruned + 1
     field_values_pruned := acc.2.field_values_pruned + fv.2
     attachments_pruned := acc.2.attachments_pruned + att.2
     totp_codes_pruned := acc.2.totp_codes_pruned + totp.2
     passkeys_pruned := acc.2.passkeys_pruned + pk.2 })

/-- Source `prune_vault`. -/
def pruneVault (input : PruneInput) : Except VaultError PruneOutput :=
  match Datetime.parseDatetime input.current_time with
  | none =>
    .error (.General ("Invalid current_time format: " ++ input.current_time))
  | some now =>
    let cutoffDate := now - (Int.ofNat input.retention_days) * Datetime.nanosPerDay
    match findTable input.tables "Items" with
    | none => .ok { success := true, statements := [], stats := {} }
    | some itemsTable =>
      let expiredItemIds := itemsTable.records.filterMap (expiredItemId cutoffDate)
      if expiredItemIds.isEmpty then
        .ok { success := true, statements := [], stats := {} }
      else
        let nowStr := Datetime.formatMillisZ now
        let res := expiredItemIds.foldl (pruneOneItem input.tables nowStr) ([], {})
        .ok { success := true, statements := res.1, stats := res.2 }

/-! ## Credential matcher: domain utilities (`credential_matcher/domain.rs`)

Strings here are processed character-wise; the Rust code operates on bytes,
which coincides on ASCII input, and every domain the matcher accepts is
ASCII-only (the charset check rejects everything else). -/

/-- Rust `str::starts_with`. -/
def startsWithStr (s pre : String) : Bool := decide (pre.toList <+: s.toList)

/-- Rust `str::ends_with`. -/
def endsWithStr (s post : String) : Bool := decide (post.toList <:+ s.toList)

/-- Rust `str::contains` for a two-character needle (used for `".."`). -/
def containsSubstr (s sub : String) : Bool := decide (sub.toList <:+: s.toList)

/-- Rust `str::to_lowercase` restricted to ASCII (all accepted domains are
ASCII; non-ASCII letters are rejected by the charset check either way). -/
def lowerStr (s : String) : String := String.mk (s.toList.map Char.toLower)

/-- Drop a literal prefix when present (Rust `strip_prefix` + `unwrap_or`). -/
def dropIfStarts (s pre : String) : String :=
  if startsWithStr s pre then String.mk (s.toList.drop pre.toList.length) else s

/-- Truncate at the first occurrence of a character (Rust
`find` + slice-to-position, identity when absent). -/
def cutAtChar (s : String) (c : Char) : String :=
  String.mk (s.toList.takeWhile (fun x => x != c))

/-- Rust `str::split(sep)` (keeps empty segments), structurally recursive so
the kernel can evaluate it. -/
def splitOnCharAux (sep : Char) : List Char → List Char → List String
  | [], acc => [String.mk acc.reverse]
  | c :: rest, acc =>
    if c == sep then String.mk acc.reverse :: splitOnCharAux sep rest []
    else splitOnCharAux sep rest (c :: acc)

def splitOnChar (sep : Char) (s : String) : List String :=
  splitOnCharAux sep s.toList []

/-- Source `COMMON_TLDS` (package-name detection). -/
def COMMON_TLDS : List String :=
  ["com", "net", "org", "edu", "gov", "mil", "int",
   "nl", "de", "uk", "fr", "it", "es", "pl", "be", "ch", "at", "se", "no", "dk", "fi",
   "pt", "gr", "cz", "hu", "ro", "bg", "hr", "sk", "si", "lt", "lv", "ee", "ie", "lu",
   "us", "ca", "mx", "br", "ar", "cl", "co", "ve", "pe", "ec",
   "au", "nz", "jp", "cn", "in", "kr", "tw", "hk", "sg", "my", "th", "id", "ph", "vn",
   "za", "eg", "ng", "ke", "ug", "tz", "ma",
   "ru", "ua", "by", "kz", "il", "tr", "sa", "ae", "qa", "kw",
   "app", "dev", "io", "ai", "tech", "shop", "store", "online", "site", "website",
   "blog", "news", "media", "tv", "video", "music", "pro", "info", "biz", "name"]

/-- Source `TWO_LEVEL_TLDS` (root-domain extraction). -/
def TWO_LEVEL_TLDS : List String :=
  ["com.au", "net.au", "org.au", "edu.au", "gov.au", "asn.au", "id.au",
   "co.uk", "org.uk", "net.uk", "ac.uk", "gov.uk", "plc.uk", "ltd.uk", "me.uk",
   "co.ca", "net.ca", "org.ca", "gc.ca", "ab.ca", "bc.ca", "mb.ca", "nb.ca", "nf.ca",
   "nl.ca", "ns.ca", "nt.ca", "nu.ca", "on.ca", "pe.ca", "qc.ca", "sk.ca", "yk.ca",
   "co.in", "net.in", "org.in", "edu.in", "gov.in", "ac.in", "res.in", "gen.in",
   "firm.in", "ind.in",
   "co.jp", "ne.jp", "or.jp", "ac.jp", "ad.jp", "ed.jp", "go.jp", "gr.jp", "lg.jp",
   "co.za", "net.za", "org.za", "edu.za", "gov.za", "ac.za", "web.za",
   "co.nz", "net.nz", "org.nz", "edu.nz", "govt.nz", "ac.nz", "geek.nz", "gen.nz",
   "kiwi.nz", "maori.nz", "mil.nz", "school.nz",
   "com.br", "net.br", "org.br", "edu.br", "gov.br", "mil.br", "art.br", "etc.br",
   "adv.br", "arq.br", "bio.br", "cim.br", "cng.br", "cnt.br", "ecn.br", "eng.br",
   "esp.br", "eti.br", "far.br", "fnd.br", "fot.br", "fst.br", "g12.br", "geo.br",
   "ggf.br", "jor.br", "lel.br", "mat.br", "med.br", "mus.br", "not.br", "ntr.br",
   "odo.br", "ppg.br", "pro.br", "psc.br", "psi.br", "qsl.br", "rec.br", "slg.br",
   "srv.br", "tmp.br", "trd.br", "tur.br", "tv.br", "vet.br", "zlg.br",
   "com.ru", "net.ru", "org.ru", "edu.ru", "gov.ru", "int.ru", "mil.ru", "spb.ru",
   "msk.ru",
   "com.cn", "net.cn", "org.cn", "edu.cn", "gov.cn", "mil.cn", "ac.cn", "ah.cn",
   "bj.cn", "cq.cn", "fj.cn", "gd.cn", "gs.cn", "gz.cn", "gx.cn", "ha.cn", "hb.cn",
   "he.cn", "hi.cn", "hk.cn", "hl.cn", "hn.cn", "jl.cn", "js.cn", "jx.cn", "ln.cn",
   "mo.cn", "nm.cn", "nx.cn", "qh.cn", "sc.cn", "sd.cn", "sh.cn", "sn.cn", "sx.cn",
   "tj.cn", "tw.cn", "xj.cn", "xz.cn", "yn.cn", "zj.cn",
   "com.mx", "net.mx", "org.mx", "edu.mx", "gob.mx",
   "com.ar", "net.ar", "org.ar", "edu.ar", "gov.ar", "mil.ar", "int.ar",
   "com.cl", "net.cl", "org.cl", "edu.cl", "gov.cl", "mil.cl",
   "com.co", "net.co", "org.co", "edu.co", "gov.co", "mil.co", "nom.co",
   "com.ve", "net.ve", "org.ve", "edu.ve", "gov.ve", "mil.ve", "web.ve",
   "com.pe", "net.pe", "org.pe", "edu.pe", "gob.pe", "mil.pe", "nom.pe",
   "com.ec", "net.ec", "org.ec", "edu.ec", "gov.ec", "mil.ec", "med.ec", "fin.ec",
   "pro.ec", "info.ec",
   "co.at", "or.at", "ac.at", "gv.at", "priv.at",
   "co.be", "ac.be",
   "co.dk", "ac.dk",
   "co.il", "net.il", "org.il", "ac.il", "gov.il", "idf.il", "k12.il", "muni.il",
   "co.no", "ac.no", "priv.no",
   "co.pl", "net.pl", "org.pl", "edu.pl", "gov.pl", "mil.pl", "nom.pl", "com.pl",
   "co.th", "net.th", "org.th", "edu.th", "gov.th", "mil.th", "ac.th", "in.th",
   "co.kr", "net.kr", "org.kr", "edu.kr", "gov.kr", "mil.kr", "ac.kr", "go.kr",
   "ne.kr", "or.kr", "pe.kr", "re.kr", "seoul.kr", "kyonggi.kr",
   "co.id", "net.id", "org.id", "edu.id", "gov.id", "mil.id", "web.id", "ac.id",
   "sch.id",
   "co.ma", "net.ma", "org.ma", "edu.ma", "gov.ma", "ac.ma", "press.ma",
   "co.ke", "net.ke", "org.ke", "edu.ke", "gov.ke", "ac.ke", "go.ke", "info.ke",
   "me.ke", "mobi.ke", "sc.ke",
   "co.ug", "net.ug", "org.ug", "edu.ug", "gov.ug", "ac.ug", "sc.ug", "go.ug",
   "ne.ug", "or.ug",
   "co.tz", "net.tz", "org.tz", "edu.tz", "gov.tz", "ac.tz", "go.tz", "hotel.tz",
   "info.tz", "me.tz", "mil.tz", "mobi.tz", "ne.tz", "or.tz", "sc.tz", "tv.tz"]

/-- Source `is_app_package_name`: contains a dot, no protocol, and the segment
before the first dot is a known TLD. -/
def isAppPackageName (text : String) : Bool :=
  if !(text.toList.contains (Char.ofNat 46)) then false
  else if startsWithStr text "http://" || startsWithStr text "https://" then false
  else
    let firstPart := lowerStr ((splitOnChar (Char.ofNat 46) text).headD "")
    COMMON_TLDS.contains firstPart

/-- The valid-character test of `extract_domain`:
`is_ascii_alphanumeric() || c == chr(46) || c == chr(45)`. -/
def validDomainChar (c : Char) : Bool :=
  c.isAlphanum || c == Char.ofNat 46 || c == Char.ofNat 45

/-- Strip protocol (if / else-if, a single strip), then `www.`, then cut at
the first of `/`, `?`, `#` — the normalisation steps shared by
`extract_domain` (source) and the spec-modelled `extract_domain_with_port`. -/
def normalizeUrl (lowered : String) : String :=
  let d1 :=
    if startsWithStr lowered "https://" then dropIfStarts lowered "https://"
    else if startsWithStr lowered "http://" then dropIfStarts lowered "http://"
    else lowered
  let d2 := dropIfStarts d1 "www."
  let d3 := cutAtChar d2 (Char.ofNat 47)
  let d4 := cutAtChar d3 (Char.ofNat 63)
  cutAtChar d4 (Char.ofNat 35)

/-- The structural validation of `extract_domain`: has a dot, only valid
characters, no leading/trailing dot, no `".."`. -/
def validDomainShape (d : String) : Bool :=
  d.toList.contains (Char.ofNat 46) &&
  d.toList.all validDomainChar &&
  !(startsWithStr d ".") && !(endsWithStr d ".") && !(containsSubstr d "..")

/-- Source `extract_domain`. -/
def extractDomain (url : String) : String :=
  if url.isEmpty then ""
  else
    let domain0 := lowerStr url
    let hasProtocol := startsWithStr domain0 "http://" || startsWithStr domain0 "https://"
    if !hasProtocol && isAppPackageName domain0 then ""
    else
      let d := normalizeUrl domain0
      if validDomainShape d then d else ""

/-- Source `extract_root_domain`: last two labels, or last three when the final two
form a known two-level public suffix. -/
def extractRootDomain (domain : String) : String :=
  let parts := splitOnChar (Char.ofNat 46) domain
  if parts.length < 2 then domain
  else
    if parts.length ≥ 3 then
      let lastTwo := (parts.getD (parts.length - 2) "") ++ "." ++
                     (parts.getD (parts.length - 1) "")
      if TWO_LEVEL_TLDS.contains lastTwo then
        String.intercalate "." (parts.drop (parts.length - 3))
      else String.intercalate "." (parts.drop (parts.length - 2))
    else String.intercalate "." (parts.drop (parts.length - 2))

/-- Source `is_subdomain_of`: strictly longer and ends with `"." ++ domain2`. -/
def isSubdomainOf (domain1 domain2 : String) : Bool :=
  if domain1.toList.length ≤ domain2.toList.length then false
  else endsWithStr domain1 ("." ++ domain2)

/-- Source `domains_match`. -/
def domainsMatch (domain1 domain2 : String) : Bool :=
  if domain1.isEmpty || domain2.isEmpty then false
  else if domain1 == domain2 then true
  else if isSubdomainOf domain1 domain2 || isSubdomainOf domain2 domain1 then true
  else extractRootDomain domain1 == extractRootDomain domain2

/-- Domain plus optional port. Modelled from the spec: the type
`DomainWithPort` is exported by `credential_matcher/mod.rs` but its defining
source file is not among the provided sources; per spec §3 it holds the host
without `www.` and an optional port, both empty iff the input is not
parseable. -/
structure DomainWithPort where
  domain : String
  port : Option String

/-- Modelled from the spec: `extract_domain_with_port` is used by
`filter_credentials` but missing from the provided sources.  Per spec §4.4
it performs the same normalisation as `extract_domain` (protocol, `www.`,
cut at path/query/fragment, package-name rejection, charset and dot-shape
validation) while retaining an optional `":port"` suffix for exact-port
matching; unparseable input yields both fields empty. -/
def extractDomainWithPort (url : String) : DomainWithPort :=
  if url.isEmpty then ⟨"", none⟩
  else
    let s0 := lowerStr url
    let hasProtocol := startsWithStr s0 "http://" || startsWithStr s0 "https://"
    if !hasProtocol && isAppPackageName s0 then ⟨"", none⟩
    else
      let d := normalizeUrl s0
      if d.toList.contains (Char.ofNat 58) then
        let host := String.mk (d.toList.takeWhile (fun c => c != Char.ofNat 58))
        let portPart := String.mk ((d.toList.dropWhile (fun c => c != Char.ofNat 58)).drop 1)
        if !portPart.isEmpty && portPart.toList.all Char.isDigit && validDomainShape host then
          ⟨host, some portPart⟩
        else ⟨"", none⟩
      else if validDomainShape d then ⟨d, none⟩
      else ⟨"", none⟩

/-! ## Credential matcher: filtering (`credential_matcher/mod.rs`,
`credential_matcher/stop_words.rs`) -/

/-- Source `STOP_WORDS` (combined English and Dutch). -/
def STOP_WORDS : List String :=
  ["login", "signin", "sign", "register", "signup", "account",
   "authentication", "password", "access", "auth", "session",
   "authenticate", "credentials", "logout", "signout",
   "portal", "dashboard", "home", "welcome", "page", "site",
   "secure", "member", "user", "profile", "settings", "menu",
   "overview", "index", "main", "start", "landing",
   "free", "create", "new", "your", "special", "offer",
   "deal", "discount", "promotion", "newsletter",
   "help", "support", "contact", "about", "faq", "terms",
   "privacy", "cookie", "service", "services", "products",
   "shop", "store", "cart", "checkout",
   "online", "web", "digital", "mobile", "my", "personal",
   "private", "general", "default", "standard", "website",
   "system", "admin", "administrator", "platform",
   "gateway", "api", "interface", "console",
   "today", "now", "current", "latest", "newest", "recent",
   "the", "and", "or", "but", "to", "up",
   "inloggen", "registreren", "registratie", "aanmelden",
   "inschrijven", "uitloggen", "wachtwoord", "toegang",
   "authenticatie",
   "portaal", "overzicht", "startpagina", "welkom", "pagina",
   "beveiligd", "lid", "gebruiker", "profiel", "instellingen",
   "begin", "hoofdpagina",
   "gratis", "nieuw", "jouw", "schrijf", "nieuwsbrief",
   "aanbieding", "korting", "speciaal", "actie",
   "hulp", "ondersteuning", "voorwaarden",
   "dienst", "diensten", "producten",
   "winkel", "bestellen", "winkelwagen",
   "digitaal", "mobiel", "mijn", "persoonlijk",
   "algemeen", "standaard",
   "systeem", "beheer", "beheerder",
   "vandaag", "huidig", "nieuwste",
   "je", "in", "op", "de", "van", "ons", "allemaal"]

/-- Source `extract_words`: lowercase, replace non-alphanumeric characters by
spaces, split on whitespace, keep words longer than 3 characters that are
not stop words. -/
def extractWords (text : String) : List String :=
  if text.isEmpty then []
  else
    let replaced := (lowerStr text).toList.map (fun c =>
      if c.isAlphanum || c == Char.ofNat 32 then c else Char.ofNat 32)
    let words := (splitOnChar (Char.ofNat 32) (String.mk replaced)).filter (fun w => !w.isEmpty)
    words.filter (fun w => w.toList.length > 3 && !STOP_WORDS.contains w)

inductive AutofillMatchingMode where
  | dflt
  | url_exact
  | url_subdomain
  deriving BEq

structure Credential where
  id : String
  item_name : Option String
  item_urls : List String
  username : Option String

/-- Source `CredentialMatcherInput`.  The `ignore_port` field is modelled from the
spec: the credential-matcher test file constructs this struct with an
`ignore_port` field and exercises its behaviour, but the provided
`credential_matcher/mod.rs` lacks both the field and its handling. -/
structure CredentialMatcherInput where
  credentials : List Credential
  current_url : String
  page_title : String
  matching_mode : AutofillMatchingMode
  ignore_port : Bool

structure CredentialMatcherOutput where
  matched_ids : List String
  matched_priority : Nat

/-- Port equality: both ports equal (including both absent).  Modelled from
the spec: "When `ignore_port` is true, port equality is forced true". -/
def portsEqual (ignorePort : Bool) (p1 p2 : Option String) : Bool :=
  p1 == p2 || ignorePort

/-- The per-credential URL loop of Priority 2: walk `item_urls` tracking the
best sub-priority; an exact domain+port match (Sub-1) breaks out
immediately; Sub-2 upgrades when the tracked best is worse than 2; Sub-3
applies only while no sub-priority is set. -/
def credBestPriority (currentInfo : DomainWithPort)
    (enableSubdomainMatch ignorePort : Bool) :
    Option Nat → List String → Option Nat
  | best, [] => best
  | best, itemUrl :: rest =>
    if itemUrl.isEmpty then
      credBestPriority currentInfo enableSubdomainMatch ignorePort best rest
    else
      let credInfo := extractDomainWithPort itemUrl
      if credInfo.domain.isEmpty then
        credBestPriority currentInfo enableSubdomainMatch ignorePort best rest
      else if currentInfo.domain == credInfo.domain &&
              portsEqual ignorePort currentInfo.port credInfo.port then
        some 1
      else
        let best1 :=
          if currentInfo.domain == credInfo.domain &&
             (match best with | some p => p > 2 | none => true) then some 2
          else best
        let best2 :=
          if enableSubdomainMatch && domainsMatch currentInfo.domain credInfo.domain &&
             best1 == none then some 3
          else best1
        credBestPriority currentInfo enableSubdomainMatch ignorePort best2 rest

/-- Priority 2 candidate list: credentials with at least one URL, paired
with their best sub-priority. -/
def priority2Candidates (credentials : List Credential)
    (currentInfo : DomainWithPort) (enableSubdomainMatch ignorePort : Bool) :
    List (Credential × Nat) :=
  credentials.filterMap (fun cred =>
    if cred.item_urls.isEmpty then none
    else
      match credBestPriority currentInfo enableSubdomainMatch ignorePort none cred.item_urls with
      | some p => some (cred, p)
      | none => none)

/-- Deduplicate by credential id keeping first occurrences, then take 3. -/
def dedupIdsTake3 (creds : List (Credential × Nat)) : List String :=
  (creds.foldl (fun (acc : List String) x =>
    if acc.contains x.1.id then acc else acc ++ [x.1.id]) []).take 3

/-- The anti-phishing candidate test of Priorities 3/3b: only credentials
with no non-empty URL are eligible, and matching is full-word equality
between extracted words. -/
def nameFallbackMatch (words : List String) (cred : Credential) : Bool :=
  if !cred.item_urls.isEmpty && cred.item_urls.any (fun u => !u.isEmpty) then false
  else
    match cred.item_name with
    | some itemName =>
      let credNameWords := extractWords itemName
      words.any (fun w => credNameWords.any (fun cw => w == cw))
    | none => false

/-- The Priority 4 text match: any search word equal to any item-name word. -/
def textMatch (searchWords : List String) (cred : Credential) : Bool :=
  match cred.item_name with
  | some itemName =>
    let itemNameWords := extractWords itemName
    searchWords.any (fun w => itemNameWords.contains w)
  | none => false

/-- Priorities 2, 3 and 3b (entered when the current URL is not a package
name and its domain extracts non-empty); never falls through to Priority 4. -/
def urlDomainMatching (credentials : List Credential) (currentUrl pageTitle : String)
    (currentInfo : DomainWithPort) (enableSubdomainMatch ignorePort : Bool) :
    CredentialMatcherOutput :=
  let withPriority := priority2Candidates credentials currentInfo enableSubdomainMatch ignorePort
  if !withPriority.isEmpty then
    let bestPriority := ((withPriority.map (fun x => x.2)).min?).getD 3
    let atBest := withPriority.filter (fun x => x.2 == bestPriority)
    { matched_ids := dedupIdsTake3 atBest, matched_priority := 2 }
  else
    let titleIds :=
      if !pageTitle.isEmpty then
        let titleWords := extractWords pageTitle
        if !titleWords.isEmpty then
          ((credentials.filter (nameFallbackMatch titleWords)).map (fun c => c.id)).take 3
        else []
      else []
    if !titleIds.isEmpty then { matched_ids := titleIds, matched_priority := 3 }
    else
      let urlWords := extractWords currentUrl
      let urlIds :=
        if !urlWords.isEmpty then
          ((credentials.filter (nameFallbackMatch urlWords)).map (fun c => c.id)).take 3
        else []
      if !urlIds.isEmpty then { matched_ids := urlIds, matched_priority := 3 }
      else { matched_ids := [], matched_priority := 0 }

/-- Priority 4 text matching (package name without exact match, or failed
domain extraction). -/
def textMatching (credentials : List Credential) (currentUrl : String) :
    CredentialMatcherOutput :=
  let searchWords := extractWords currentUrl
  if !searchWords.isEmpty then
    let ids := ((credentials.filter (textMatch searchWords)).map (fun c => c.id)).take 3
    if !ids.isEmpty then { matched_ids := ids, matched_priority := 4 }
    else { matched_ids := [], matched_priority := 0 }
  else { matched_ids := [], matched_priority := 0 }

/-- Source `filter_credentials` (with the spec-modelled `ignore_port` behaviour in
Priority 2). -/
def filterCredentials (input : CredentialMatcherInput) : CredentialMatcherOutput :=
  if input.current_url.isEmpty then { matched_ids := [], matched_priority := 0 }
  else
    let isPackageName := isAppPackageName input.current_url
    let packageMatchIds :=
      if isPackageName then
        ((input.credentials.filter (fun cred =>
          cred.item_urls.any (fun url => !url.isEmpty && url == input.current_url))).map
            (fun c => c.id)).take 3
      else []
    if isPackageName && !packageMatchIds.isEmpty then
      { matched_ids := packageMatchIds, matched_priority := 1 }
    else
      let currentInfo := extractDomainWithPort input.current_url
      if !isPackageName && !currentInfo.domain.isEmpty then
        let enableSubdomainMatch :=
          input.matching_mode == .dflt || input.matching_mode == .url_subdomain
        urlDomainMatching input.credentials input.current_url input.page_title
          currentInfo enableSubdomainMatch input.ignore_port
      else
        textMatching input.credentials input.current_url

/-! ## SRP (`srp/mod.rs`)

The RFC 5054 2048-bit group constant `G_2048` lives in the third-party
`srp` crate, outside this repository, so the functions are parametric in
the group `(n, g)`; every claim is proved for all groups (hence in
particular for `G_2048`).  `BigUint` values are `Nat`; `modpow` is
mathematical `b ^ e % m`. -/

structure SrpGroup where
  n : Nat
  g : Nat

inductive SrpError where
  | InvalidHex (details : String)
  | InvalidParameter (details : String)
  | AuthenticationFailed (details : String)

structure SrpSession where
  proof : String
  key : String

/-- UTF-8 encoding of one character. -/
def utf8Char (c : Char) : List Nat :=
  let n := c.toNat
  if n < 128 then [n]
  else if n < 2048 then [192 + n / 64, 128 + n % 64]
  else if n < 65536 then [224 + n / 4096, 128 + (n / 64) % 64, 128 + n % 64]
  else [240 + n / 262144, 128 + (n / 4096) % 64, 128 + (n / 64) % 64, 128 + n % 64]

/-- Rust `str::as_bytes` (UTF-8). -/
def utf8Bytes (s : String) : List Nat := s.toList.flatMap utf8Char

def hexDigitUpper (n : Nat) : Char := Char.ofNat (if n < 10 then 48 + n else 55 + n)

/-- Source `bytes_to_hex`: uppercase hex, two digits per byte. -/
def bytesToHex (bs : List Nat) : String :=
  String.mk (bs.flatMap (fun b => [hexDigitUpper (b / 16), hexDigitUpper (b % 16)]))

/-- Hex digit value, accepting both cases. -/
def hexDigitVal (c : Char) : Option Nat :=
  if c.isDigit then some (c.toNat - 48)
  else if 97 ≤ c.toNat && c.toNat ≤ 102 then some (c.toNat - 87)
  else if 65 ≤ c.toNat && c.toNat ≤ 70 then some (c.toNat - 55)
  else none

/-- One two-character chunk via `u8::from_str_radix(_, 16)`, which also
accepts a leading `+` sign. -/
def parseHexPair (c1 c2 : Char) : Option Nat :=
  match hexDigitVal c1, hexDigitVal c2 with
  | some a, some b => some (16 * a + b)
  | _, _ => if c1 == Char.ofNat 43 then hexDigitVal c2 else none

def isWsChar (c : Char) : Bool :=
  c == Char.ofNat 32 || c == Char.ofNat 9 || c == Char.ofNat 10 || c == Char.ofNat 13

/-- Rust `str::trim` (ASCII whitespace; no claim involves Unicode spaces). -/
def trimAscii (s : String) : String :=
  String.mk (((s.toList.dropWhile isWsChar).reverse.dropWhile isWsChar).reverse)

/-- Sequential `strip_prefix("0x")` then `strip_prefix("0X")`. -/
def stripHexMarks (s : String) : String := dropIfStarts (dropIfStarts s "0x") "0X"

/-- The chunk loop of `hex_to_bytes` (the error-message cause text of the
source is not reproduced verbatim; no claim depends on it). -/
def hexPairsToBytes (i : Nat) : List Char → Except SrpError (List Nat)
  | [] => .ok []
  | c1 :: c2 :: rest =>
    match parseHexPair c1 c2 with
    | some b =>
      match hexPairsToBytes (i + 2) rest with
      | .ok bs => .ok (b :: bs)
      | .error e => .error e
    | none => .error (.InvalidHex ("invalid hex at position " ++ toString i))
  | _ => .error (.InvalidHex "odd length")

/-- Source `hex_to_bytes`. -/
def hexToBytes (hex : String) : Except SrpError (List Nat) :=
  let h := trimAscii hex
  if h.isEmpty then .error (.InvalidHex "empty hex string")
  else
    let h := stripHexMarks h
    if h.toList.length % 2 != 0 then
      .error (.InvalidHex ("odd length hex string: " ++ toString h.toList.length))
    else hexPairsToBytes 0 h.toList

/-- Source `pad_to_length` (left-pad with zeros; longer inputs returned unchanged). -/
def padToLength (bytes : List Nat) (targetLen : Nat) : List Nat :=
  if bytes.length ≥ targetLen then bytes
  else List.replicate (targetLen - bytes.length) 0 ++ bytes

/-- Source `BigUint::from_bytes_be`. -/
def natFromBytesBE (bs : List Nat) : Nat := bs.foldl (fun a b => a * 256 + b) 0

/-- Big-endian bytes of a `Nat` (fuel-based so the kernel can evaluate it);
`BigUint::to_bytes_be` yields `[0]` for zero. -/
def natToBytesBEAux : Nat → Nat → List Nat
  | 0, _ => []
  | fuel + 1, n => if n == 0 then [] else natToBytesBEAux fuel (n / 256) ++ [n % 256]

def natToBytesBE (n : Nat) : List Nat :=
  if n == 0 then [0] else natToBytesBEAux n n

/-- Source `BigUint::modpow`. -/
def modPow (b e m : Nat) : Nat := (b ^ e) % m

/-- Source `compute_u`: `H(A | B)` as a number. -/
def computeU (aPub bPub : List Nat) : Nat := natFromBytesBE (sha256 (aPub ++ bPub))

/-- Source `compute_k`: `H(N | PAD(g, 256))` — `g` is left-padded to 256 bytes. -/
def computeK (group : SrpGroup) : Nat :=
  natFromBytesBE (sha256 (natToBytesBE group.n ++ padToLength (natToBytesBE group.g) 256))

/-- Byte-wise xor of two buffers (`zip`-truncating like the source). -/
def xorBytes (a b : List Nat) : List Nat := (a.zip b).map (fun p => p.1 ^^^ p.2)

/-- Source `compute_m1`: `H((H(N) xor H(g)) | H(I) | s | A | B | K)`; the `H(g)` term
hashes `g` without padding. -/
def computeM1 (group : SrpGroup) (aPub bPub salt : List Nat) (identity : String)
    (key : List Nat) : List Nat :=
  let hN := sha256 (natToBytesBE group.n)
  let hG := sha256 (natToBytesBE group.g)
  let hI := sha256 (utf8Bytes identity)
  sha256 (xorBytes hN hG ++ hI ++ salt ++ aPub ++ bPub ++ key)

/-- Source `compute_m2`: `H(A | M1 | K)`. -/
def computeM2 (aPub m1 key : List Nat) : List Nat := sha256 (aPub ++ m1 ++ key)

/-- Source `srp_derive_private_key`:
`x = H(hex_decode(salt) | H(identity | ":" | password_hash))`, with
`password_hash` consumed as its ASCII text. -/
def srpDerivePrivateKey (salt identity passwordHash : String) :
    Except SrpError String :=
  match hexToBytes salt with
  | .error e => .error e
  | .ok saltBytes =>
    let identityHash := sha256 (utf8Bytes identity ++ utf8Bytes ":" ++ utf8Bytes passwordHash)
    .ok (bytesToHex (sha256 (saltBytes ++ identityHash)))

/-- Source `srp_derive_session` (client side). -/
def srpDeriveSession (group : SrpGroup)
    (clientSecret serverPublic salt identity privateKey : String) :
    Except SrpError SrpSession :=
  match hexToBytes clientSecret with
  | .error e => .error e
  | .ok a =>
  match hexToBytes serverPublic with
  | .error e => .error e
  | .ok bPub =>
  match hexToBytes salt with
  | .error e => .error e
  | .ok saltBytes =>
  match hexToBytes privateKey with
  | .error e => .error e
  | .ok xBytes =>
    let aBig := natFromBytesBE a
    let aPub := modPow group.g aBig group.n
    let bPubBig := natFromBytesBE bPub
    if bPubBig % group.n == 0 then
      .error (.InvalidParameter "server public ephemeral is invalid")
    else
      let aPubBytes := padToLength (natToBytesBE aPub) 256
      let bPubBytes := padToLength bPub 256
      let u := computeU aPubBytes bPubBytes
      let k := computeK group
      let x := natFromBytesBE xBytes
      let kgx := (k * modPow group.g x group.n) % group.n
      let base := ((group.n + bPubBig) - kgx) % group.n
      let s := modPow base (u * x + aBig) group.n
      let key := sha256 (padToLength (natToBytesBE s) 256)
      let m1 := computeM1 group aPubBytes bPubBytes saltBytes identity key
      .ok { proof := bytesToHex m1, key := bytesToHex key }

/-- The server-side recomputation of the session key `K` and the expected
client proof `M1` (the straight-line middle section of
`srp_derive_session_server`, shared between the embedding and the theorems
about it). -/
def serverKeyAndM1 (group : SrpGroup) (b aPub saltBytes vBytes : List Nat)
    (identity : String) : List Nat × List Nat :=
  let bBig := natFromBytesBE b
  let aPubBig := natFromBytesBE aPub
  let v := natFromBytesBE vBytes
  let k := computeK group
  let kv := (k * v) % group.n
  let bPub := (kv + modPow group.g bBig group.n) % group.n
  let aPubBytes := padToLength aPub 256
  let bPubBytes := padToLength (natToBytesBE bPub) 256
  let u := computeU aPubBytes bPubBytes
  let vU := modPow v u group.n
  let s := modPow ((aPubBig * vU) % group.n) bBig group.n
  let key := sha256 (padToLength (natToBytesBE s) 256)
  (key, computeM1 group aPubBytes bPubBytes saltBytes identity key)

/-- Source `srp_derive_session_server`: `Ok(None)` on client-proof mismatch,
`Ok(Some(session))` with `M2 = H(A | M1 | K)` on success. -/
def srpDeriveSessionServer (group : SrpGroup)
    (serverSecret clientPublic salt identity verifier clientProof : String) :
    Except SrpError (Option SrpSession) :=
  match hexToBytes serverSecret with
  | .error e => .error e
  | .ok b =>
  match hexToBytes clientPublic with
  | .error e => .error e
  | .ok aPub =>
  match hexToBytes salt with
  | .error e => .error e
  | .ok saltBytes =>
  match hexToBytes verifier with
  | .error e => .error e
  | .ok vBytes =>
  match hexToBytes clientProof with
  | .error e => .error e
  | .ok clientM1 =>
    if natFromBytesBE aPub % group.n == 0 then
      .error (.InvalidParameter "client public ephemeral is invalid")
    else
      let km := serverKeyAndM1 group b aPub saltBytes vBytes identity
      if km.2 == clientM1 then
        .ok (some { proof := bytesToHex (computeM2 (padToLength aPub 256) km.2 km.1),
                    key := bytesToHex km.1 })
      else .ok none

/-! ## Spec-side definitions

Definitions below transcribe the *claim wording* (not the source) and are
compared with the source-derived definitions in the theorems. -/

/-- Claim C3's wording of the subdomain relation: the longer domain ends
with a dot followed by the shorter one (never a bare substring match). -/
def strictDottedSuffix (longer shorter : String) : Prop :=
  shorter.toList.length < longer.toList.length ∧
    (Char.ofNat 46 :: shorter.toList) <:+ longer.toList

/-- Claim C9's (amended) truthiness of `IsDeleted`: integer 1 or boolean
true; anything else (or absence) is falsey. -/
def specDeletedTruthy (item : VRecord) : Bool :=
  match recordGet item "IsDeleted" with
  | some (.num n) => n == 1
  | some (.bool b) => b
  | _ => false

/-- Claim C9's (amended) expiring test, returning the item's `Id`: the item
has a string `Id`, its `IsDeleted` is not truthy, and its `DeletedAt` is a
parseable timestamp strictly before the cutoff. -/
def specExpiredId (cutoffDate : Int) (item : VRecord) : Option String :=
  match (recordGet item "Id").bind JsonValue.asStr with
  | none => none
  | some id =>
    if specDeletedTruthy item then none
    else
      match ((recordGet item "DeletedAt").bind JsonValue.asStr).bind Datetime.parseDatetime with
      | some d => if d < cutoffDate then some id else none
      | none => none

/-- Claim C9's per-child-table statement: emitted iff the table is present
in the input and contains at least one non-deleted record whose `ItemId`
matches. -/
def specChildStmt (tables : List TableData) (tableName nowStr itemId : String) :
    List SqlStatement :=
  match findTable tables tableName with
  | none => []
  | some t =>
    if t.records.any (fun r =>
        ((recordGet r "ItemId").bind JsonValue.asStr) == some itemId &&
        !(specDeletedTruthy r)) then
      [{ sql := "UPDATE " ++ tableName ++
             " SET IsDeleted = 1, UpdatedAt = ? WHERE ItemId = ? AND IsDeleted = 0",
         params := [JsonValue.str nowStr, JsonValue.str itemId] }]
    else []

/-- Claim C9's per-item statement block: first the `Items` UPDATE carrying
the normalised caller time, then one UPDATE per related table in the fixed
order `FieldValues`, `Attachments`, `TotpCodes`, `Passkeys`. -/
def specPruneBlock (tables : List TableData) (nowStr itemId : String) :
    List SqlStatement :=
  { sql := "UPDATE Items SET IsDeleted = 1, UpdatedAt = ? WHERE Id = ?"
    params := [JsonValue.str nowStr, JsonValue.str itemId] } ::
  (specChildStmt tables "FieldValues" nowStr itemId ++
   specChildStmt tables "Attachments" nowStr itemId ++
   specChildStmt tables "TotpCodes" nowStr itemId ++
   specChildStmt tables "Passkeys" nowStr itemId)

/-- The statement block of one iteration of the pruner's per-item loop
(source side). -/
def pruneItemBlock (tables : List TableData) (nowStr itemId : String) :
    List SqlStatement :=
  { sql := "UPDATE Items SET IsDeleted = 1, UpdatedAt = ? WHERE Id = ?"
    params := [JsonValue.str nowStr, JsonValue.str itemId] } ::
  ((pruneChildTable tables "FieldValues" nowStr itemId).1 ++
   (pruneChildTable tables "Attachments" nowStr itemId).1 ++
   (pruneChildTable tables "TotpCodes" nowStr itemId).1 ++
   (pruneChildTable tables "Passkeys" nowStr itemId).1)

/-! ## Concrete instances used by counterexamples and witnesses -/

/-- Successful-merge accessor. -/
def mergeOk (input : MergeInput) : Option MergeOutput := (mergeVaults input).toOption

/-- Successful-prune accessor. -/
def pruneOk (input : PruneInput) : Option PruneOutput := (pruneVault input).toOption

/-- C1: local record with an `Id` but no `UpdatedAt` at all. -/
def c1LocalRecord : VRecord := [("Id", JsonValue.str "1"), ("Name", JsonValue.str "A")]

/-- C1: matching server record with a parseable `UpdatedAt`. -/
def c1ServerRecord : VRecord :=
  [("Id", JsonValue.str "1"), ("Name", JsonValue.str "B"),
   ("UpdatedAt", JsonValue.str "2024-01-01T00:00:00Z")]

def c1Input : MergeInput :=
  { local_tables := [{ name := "Items", records := [c1LocalRecord] }]
    server_tables := [{ name := "Items", records := [c1ServerRecord] }] }

/-- C9: item whose `IsDeleted` is the integer 2 — neither 0/false/absent nor
1/true — with a `DeletedAt` far before the cutoff. -/
def c9Item : VRecord :=
  [("Id", JsonValue.str "item-2"), ("IsDeleted", JsonValue.num 2),
   ("DeletedAt", JsonValue.str "2024-01-01T00:00:00.000Z")]

def c9Input : PruneInput :=
  { tables := [{ name := "Items", records := [c9Item] }]
    current_time := "2024-06-01T00:00:00.000Z"
    retention_days := 30 }

/-- C9 witness: an expiring item with one non-deleted `FieldValues` child. -/
def c9wItem : VRecord :=
  [("Id", JsonValue.str "item-1"), ("IsDeleted", JsonValue.num 0),
   ("UpdatedAt", JsonValue.str "2024-01-01T00:00:00Z"),
   ("DeletedAt", JsonValue.str "2024-01-01T00:00:00.000Z")]

def c9wChild : VRecord :=
  [("Id", JsonValue.str "fv-1"), ("ItemId", JsonValue.str "item-1"),
   ("IsDeleted", JsonValue.num 0)]

def c9wInput : PruneInput :=
  { tables := [{ name := "Items", records := [c9wItem] },
               { name := "FieldValues", records := [c9wChild] }]
    current_time := "2024-06-01T00:00:00.000Z"
    retention_days := 30 }

/-- C10 witness: a vault with only a `FieldValues` table. -/
def c10Input : PruneInput :=
  { tables := [{ name := "FieldValues", records := [c9wChild] }]
    current_time := "2024-06-01T00:00:00.000Z"
    retention_days := 30 }

/-- C2: three credentials on the same host with ports 8080, 9000 and none
(the `ignore_port` scenario of the source test-suite). -/
def c2Credentials : List Credential :=
  [{ id := "a", item_name := some "Server8080",
     item_urls := ["https://myserver.local:8080"], username := none },
   { id := "b", item_name := some "Server9000",
     item_urls := ["https://myserver.local:9000"], username := none },
   { id := "c", item_name := some "ServerNoPort",
     item_urls := ["https://myserver.local"], username := none }]

def c2Input (ignorePort : Bool) : CredentialMatcherInput :=
  { credentials := c2Credentials, current_url := "https://myserver.local/home",
    page_title := "", matching_mode := .dflt, ignore_port := ignorePort }

/-- C7/C8 witness records. -/
def c78LocalRecord : VRecord :=
  [("Id", JsonValue.str "local-id"), ("ItemId", JsonValue.str "i1"),
   ("FieldKey", JsonValue.str "k1"),
   ("UpdatedAt", JsonValue.str "2024-01-01T00:00:00Z"),
   ("Value", JsonValue.str "old")]

def c78ServerRecord : VRecord :=
  [("Id", JsonValue.str "server-id"), ("ItemId", JsonValue.str "i1"),
   ("FieldKey", JsonValue.str "k1"),
   ("UpdatedAt", JsonValue.str "2024-01-02T00:00:00Z"),
   ("Value", JsonValue.str "new")]

def c78EqServerRecord : VRecord :=
  [("Id", JsonValue.str "server-id"), ("ItemId", JsonValue.str "i1"),
   ("FieldKey", JsonValue.str "k1"),
   ("UpdatedAt", JsonValue.str "2024-01-01T00:00:00Z"),
   ("Value", JsonValue.str "new")]

/-! ## Helper lemmas -/

theorem insertSorted_perm (x : String) (l : List String) :
    (insertSorted x l).Perm (x :: l) := by
  induction l with
  | nil => exact List.Perm.refl _
  | cons y ys ih =>
    unfold insertSorted
    by_cases h : strLeb x y = true
    · rw [if_pos h]
    · rw [if_neg h]
      exact (ih.cons y).trans (List.Perm.swap x y ys)

theorem sortStr_perm (l : List String) : (sortStr l).Perm l := by
  induction l with
  | nil => exact List.Perm.refl _
  | cons a l ih =>
    exact (insertSorted_perm a (sortStr l)).trans (ih.cons a)

theorem serverWins_eq_false_of_none {a b : Option Int} (h : a = none ∨ b = none) :
    serverWins a b = false := by
  cases a <;> cases b <;> simp [serverWins] at h ⊢

theorem serverWins_eq_true_iff {a b : Option Int} :
    serverWins a b = true ↔ ∃ s l, a = some s ∧ b = some l ∧ l < s := by
  cases a <;> cases b <;> simp [serverWins]

theorem serverWins_self {t : Int} : serverWins (some t) (some t) = false := by
  simp [serverWins]

/-! ## Claim theorems -/

/-- C10: if `current_time` parses but no table is named `Items`, `prune_vault`
returns `Ok` with `success = true`, no statements and all-zero statistics. -/
theorem vaultPruner_no_items_table_returns_empty_success
    (input : PruneInput) (t : Int)
    (hparse : Datetime.parseDatetime input.current_time = some t)
    (hno : ∀ td ∈ input.tables, td.name ≠ "Items") :
    pruneVault input = .ok
      { success := true, statements := []
        stats := { items_pruned := 0, field_values_pruned := 0, attachments_pruned := 0,
                   totp_codes_pruned := 0, passkeys_pruned := 0 } } := by
  have hfind : findTable input.tables "Items" = none := by
    apply List.find?_eq_none.mpr
    intro td htd
    simpa using hno td htd
  unfold pruneVault
  rw [hparse, hfind]

theorem vaultPruner_no_items_table_returns_empty_success_witness :
    pruneVault c10Input = .ok
      { success := true, statements := []
        stats := { items_pruned := 0, field_values_pruned := 0, attachments_pruned := 0,
                   totp_codes_pruned := 0, passkeys_pruned := 0 } } :=
  vaultPruner_no_items_table_returns_empty_success c10Input 1717200000000000000
    rfl (by decide)

/-- C4: `srp_derive_private_key` returns the uppercase hex of
`SHA256(hex_decode(salt) ++ SHA256(identity ++ ":" ++ password_hash))`, the
password hash being consumed as its ASCII text, and reproduces the source
test vector. -/
theorem srpDerivePrivateKey_formula_and_vector :
    (∀ (salt identity passwordHash : String) (saltBytes : List Nat),
       hexToBytes salt = .ok saltBytes →
       srpDerivePrivateKey salt identity passwordHash =
         .ok (bytesToHex (sha256 (saltBytes ++
           sha256 (utf8Bytes identity ++ utf8Bytes ":" ++ utf8Bytes passwordHash))))) ∧
    srpDerivePrivateKey "0A0B0C0D0E0F10111213141516171819" "testuser" "AABBCCDD" =
      .ok "ACD81DF26882B20336CF2A8CDE3CABA35BA359805FDFC4567EA7BD74E8302473" := by
  constructor
  · intro salt identity passwordHash saltBytes h
    unfold srpDerivePrivateKey
    rw [h]
  · rfl

theorem srpDerivePrivateKey_formula_and_vector_witness :
    srpDerivePrivateKey "0A0B0C0D0E0F10111213141516171819" "testuser" "AABBCCDD" =
      .ok (bytesToHex (sha256
        ([10, 11, 12, 13, 14, 15, 16, 17, 18, 19, 20, 21, 22, 23, 24, 25] ++
          sha256 (utf8Bytes "testuser" ++ utf8Bytes ":" ++ utf8Bytes "AABBCCDD")))) :=
  srpDerivePrivateKey_formula_and_vector.1
    "0A0B0C0D0E0F10111213141516171819" "testuser" "AABBCCDD"
    [10, 11, 12, 13, 14, 15, 16, 17, 18, 19, 20, 21, 22, 23, 24, 25] rfl

/-- C5: the multiplier `k` hashes `N ++ PAD(g, 256)` (for `g = 2`: 255 zero
bytes then the byte 2), while the `H(g)` term of `M1` hashes `g` without any
padding (for `g = 2`: the single byte 2); the two hash inputs genuinely
differ. -/
theorem srp_k_pads_g_but_m1_does_not :
    (∀ group : SrpGroup, group.g = 2 →
       computeK group =
         natFromBytesBE (sha256 (natToBytesBE group.n ++ (List.replicate 255 0 ++ [2]))) ∧
       ∀ (aPub bPub salt : List Nat) (identity : String) (key : List Nat),
         computeM1 group aPub bPub salt identity key =
           sha256 (xorBytes (sha256 (natToBytesBE group.n)) (sha256 [2]) ++
             sha256 (utf8Bytes identity) ++ salt ++ aPub ++ bPub ++ key)) ∧
    sha256 [2] ≠ sha256 (List.replicate 255 0 ++ [2]) := by
  refine ⟨fun group hg => ⟨?_, ?_⟩, by decide⟩
  · unfold computeK
    rw [hg]
    rfl
  · intro aPub bPub salt identity key
    unfold computeM1
    rw [hg]
    rfl

theorem srp_k_pads_g_but_m1_does_not_witness :
    computeK { n := 7, g := 2 } =
      natFromBytesBE (sha256 (natToBytesBE 7 ++ (List.replicate 255 0 ++ [2]))) ∧
    computeM1 { n := 7, g := 2 } [] [] [] "" [] =
      sha256 (xorBytes (sha256 (natToBytesBE 7)) (sha256 [2]) ++
        sha256 (utf8Bytes "") ++ [] ++ [] ++ [] ++ []) :=
  ⟨(srp_k_pads_g_but_m1_does_not.1 { n := 7, g := 2 } rfl).1,
   (srp_k_pads_g_but_m1_does_not.1 { n := 7, g := 2 } rfl).2 [] [] [] "" []⟩

/-- C1 counterexample: in `merge_vaults`, a matched pair where the local
record has no parseable `UpdatedAt` while the server record has one produces
NO statement (the local record wins and `records_from_local` is counted),
contradicting the claim that the server record wins with an UPDATE. -/
theorem merge_missing_local_timestamp_counterexample :
    getUpdatedAt c1LocalRecord = none ∧
    getUpdatedAt c1ServerRecord = some 1704067200000000000 ∧
    (mergeOk c1Input).map (fun o => o.statements) = some [] ∧
    (mergeOk c1Input).map (fun o => o.stats.records_from_local) = some 1 ∧
    (mergeOk c1Input).map (fun o => o.stats.records_from_server) = some 0 :=
  ⟨rfl, rfl, rfl, rfl, rfl⟩

/-- C1 amended: for a matched local/server pair, whenever either record
lacks a parseable `UpdatedAt` the LOCAL record wins — no statement is
emitted and `records_from_local` is incremented — in both the by-`Id` and
the composite-key merge; a server record missing its timestamp never wins,
and a local record missing its timestamp also wins (it does not lose as the
original claim stated). -/
theorem merge_missing_timestamp_local_wins
    (tableName localId : String) (keyColumns : List String) (acc : MergeAcc)
    (localRecord serverRecord : VRecord)
    (hid : getRecordId localRecord = some localId)
    (hts : getUpdatedAt serverRecord = none ∨ getUpdatedAt localRecord = none) :
    (mapGet acc.serverMap localId = some serverRecord →
       (mergeByIdStep tableName acc localRecord).statements = acc.statements ∧
       (mergeByIdStep tableName acc localRecord).stats.records_from_local =
         acc.stats.records_from_local + 1 ∧
       (mergeByIdStep tableName acc localRecord).stats.records_from_server =
         acc.stats.records_from_server) ∧
    (mapGet acc.serverMap (getCompositeKey localRecord keyColumns) = some serverRecord →
       (mergeByCompositeStep tableName keyColumns acc localRecord).statements =
         acc.statements ∧
       (mergeByCompositeStep tableName keyColumns acc localRecord).stats.records_from_local =
         acc.stats.records_from_local + 1 ∧
       (mergeByCompositeStep tableName keyColumns acc localRecord).stats.records_from_server =
         acc.stats.records_from_server) := by
  have hw : serverWins (getUpdatedAt serverRecord) (getUpdatedAt localRecord) = false :=
    serverWins_eq_false_of_none hts
  constructor
  · intro hmap
    unfold mergeByIdStep
    rw [hid]
    simp [hmap, hw]
  · intro hmap
    unfold mergeByCompositeStep
    rw [hid]
    simp [hmap, hw]

theorem merge_missing_timestamp_local_wins_witness :
    (mergeByIdStep "Items"
        { statements := [], stats := {}, serverMap := [("1", c1ServerRecord)] }
        c1LocalRecord).statements = [] ∧
    (mergeByIdStep "Items"
        { statements := [], stats := {}, serverMap := [("1", c1ServerRecord)] }
        c1LocalRecord).stats.records_from_local = 0 + 1 := by
  have h := (merge_missing_timestamp_local_wins "Items" "1" [] 
    { statements := [], stats := {}, serverMap := [("1", c1ServerRecord)] }
    c1LocalRecord c1ServerRecord rfl (Or.inr rfl)).1 rfl
  exact ⟨h.1, h.2.1⟩

/-- C7: for a matched pair whose timestamps both parse and are equal, the
local record wins (no statement, `records_from_local` incremented) in both
merge strategies; and in either strategy a statement is appended only when
both timestamps parse and the server one is strictly greater. -/
theorem merge_equal_timestamps_local_wins :
    (∀ (tableName localId : String) (keyColumns : List String) (acc : MergeAcc)
       (localRecord serverRecord : VRecord) (ts : Int),
       getRecordId localRecord = some localId →
       getUpdatedAt localRecord = some ts →
       getUpdatedAt serverRecord = some ts →
       (mapGet acc.serverMap localId = some serverRecord →
          (mergeByIdStep tableName acc localRecord).statements = acc.statements ∧
          (mergeByIdStep tableName acc localRecord).stats.records_from_local =
            acc.stats.records_from_local + 1) ∧
       (mapGet acc.serverMap (getCompositeKey localRecord keyColumns) = some serverRecord →
          (mergeByCompositeStep tableName keyColumns acc localRecord).statements =
            acc.statements ∧
          (mergeByCompositeStep tableName keyColumns acc localRecord).stats.records_from_local =
            acc.stats.records_from_local + 1)) ∧
    (∀ (tableName : String) (acc : MergeAcc) (localRecord : VRecord),
       (mergeByIdStep tableName acc localRecord).statements ≠ acc.statements →
       ∃ localId serverRecord sTs lTs,
         getRecordId localRecord = some localId ∧
         mapGet acc.serverMap localId = some serverRecord ∧
         getUpdatedAt serverRecord = some sTs ∧
         getUpdatedAt localRecord = some lTs ∧ lTs < sTs) ∧
    (∀ (tableName : String) (keyColumns : List String) (acc : MergeAcc)
       (localRecord : VRecord),
       (mergeByCompositeStep tableName keyColumns acc localRecord).statements ≠
         acc.statements →
       ∃ localId serverRecord sTs lTs,
         getRecordId localRecord = some localId ∧
         mapGet acc.serverMap (getCompositeKey localRecord keyColumns) = some serverRecord ∧
         getUpdatedAt serverRecord = some sTs ∧
         getUpdatedAt localRecord = some lTs ∧ lTs < sTs) := by
  refine ⟨?_, ?_, ?_⟩
  · intro tableName localId keyColumns acc localRecord serverRecord ts hid hl hs
    have hw : serverWins (getUpdatedAt serverRecord) (getUpdatedAt localRecord) = false := by
      rw [hl, hs]; exact serverWins_self
    constructor
    · intro hmap
      unfold mergeByIdStep
      rw [hid]
      simp [hmap, hw]
    · intro hmap
      unfold mergeByCompositeStep
      rw [hid]
      simp [hmap, hw]
  · intro tableName acc localRecord hne
    unfold mergeByIdStep at hne
    cases hid : getRecordId localRecord with
    | none => rw [hid] at hne; exact absurd rfl hne
    | some localId =>
      rw [hid] at hne
      cases hmap : mapGet acc.serverMap localId with
      | none =>
        simp only [hmap] at hne
        exact absurd rfl hne
      | some serverRecord =>
        simp only [hmap] at hne
        cases hw : serverWins (getUpdatedAt serverRecord) (getUpdatedAt localRecord) with
        | false =>
          simp only [hw, Bool.false_eq_true, if_false] at hne
          exact absurd rfl hne
        | true =>
          obtain ⟨sTs, lTs, hs, hl, hlt⟩ := serverWins_eq_true_iff.mp hw
          exact ⟨localId, serverRecord, sTs, lTs, rfl, hmap, hs, hl, hlt⟩
  · intro tableName keyColumns acc localRecord hne
    unfold mergeByCompositeStep at hne
    cases hid : getRecordId localRecord with
    | none => rw [hid] at hne; exact absurd rfl hne
    | some localId =>
      rw [hid] at hne
      cases hmap : mapGet acc.serverMap (getCompositeKey localRecord keyColumns) with
      | none =>
        simp only [hmap] at hne
        exact absurd rfl hne
      | some serverRecord =>
        simp only [hmap] at hne
        cases hw : serverWins (getUpdatedAt serverRecord) (getUpdatedAt localRecord) with
        | false =>
          simp only [hw, Bool.false_eq_true, if_false] at hne
          exact absurd rfl hne
        | true =>
          obtain ⟨sTs, lTs, hs, hl, hlt⟩ := serverWins_eq_true_iff.mp hw
          exact ⟨localId, serverRecord, sTs, lTs, rfl, rfl, hs, hl, hlt⟩

theorem merge_equal_timestamps_local_wins_witness :
    (mergeByCompositeStep "FieldValues" ["ItemId", "FieldKey"]
        { statements := [], stats := {}, serverMap := [("i1:k1", c78EqServerRecord)] }
        c78LocalRecord).statements = [] ∧
    (mergeByCompositeStep "FieldValues" ["ItemId", "FieldKey"]
        { statements := [], stats := {}, serverMap := [("i1:k1", c78EqServerRecord)] }
        c78LocalRecord).stats.records_from_local = 0 + 1 :=
  (merge_equal_timestamps_local_wins.1 "FieldValues" "local-id" ["ItemId", "FieldKey"]
    { statements := [], stats := {}, serverMap := [("i1:k1", c78EqServerRecord)] }
    c78LocalRecord c78EqServerRecord 1704067200000000000 rfl rfl rfl).2 rfl

theorem toList_append_str (a b : String) : (a ++ b).toList = a.toList ++ b.toList := by
  simp [String.toList, String.data_append]

theorem dot_append_toList (b : String) :
    ("." ++ b).toList = Char.ofNat 46 :: b.toList := by
  rw [toList_append_str]
  rfl

theorem isSubdomainOf_iff_strictDottedSuffix (a b : String) :
    isSubdomainOf a b = true ↔ strictDottedSuffix a b := by
  unfold isSubdomainOf strictDottedSuffix endsWithStr
  by_cases h : a.toList.length ≤ b.toList.length
  · simp only [if_pos h, Bool.false_eq_true, false_iff]
    rintro ⟨hlt, _⟩
    omega
  · simp only [if_neg h, decide_eq_true_eq]
    rw [dot_append_toList]
    constructor
    · intro hs
      have hl := hs.length_le
      simp only [List.length_cons] at hl
      exact ⟨by omega, hs⟩
    · rintro ⟨_, hs⟩
      exact hs

/-- C3: `domains_match` on non-empty extracted domains holds exactly when
the domains are equal, or one is a strict dotted suffix of the other, or
their root domains coincide; and the two anti-phishing examples are
rejected. -/
theorem domainsMatch_characterization :
    (∀ d1 d2 : String, d1 ≠ "" → d2 ≠ "" →
       (domainsMatch d1 d2 = true ↔
         (d1 = d2 ∨ strictDottedSuffix d1 d2 ∨ strictDottedSuffix d2 d1 ∨
          extractRootDomain d1 = extractRootDomain d2))) ∧
    domainsMatch "another-example.com" "example.com" = false ∧
    domainsMatch "example.com.evil.com" "example.com" = false := by
  refine ⟨?_, by decide, by decide⟩
  intro d1 d2 h1 h2
  unfold domainsMatch
  have e1 : d1.isEmpty = false := by
    cases hh : d1.isEmpty with
    | false => rfl
    | true => exact absurd ((String.isEmpty_iff d1).mp hh) h1
  have e2 : d2.isEmpty = false := by
    cases hh : d2.isEmpty with
    | false => rfl
    | true => exact absurd ((String.isEmpty_iff d2).mp hh) h2
  rw [e1, e2]
  by_cases heq : d1 = d2
  · subst heq
    simp
  · by_cases hsub1 : isSubdomainOf d1 d2 = true
    · simp [heq, hsub1, (isSubdomainOf_iff_strictDottedSuffix d1 d2).mp hsub1]
    · by_cases hsub2 : isSubdomainOf d2 d1 = true
      · simp [heq, hsub1, hsub2, (isSubdomainOf_iff_strictDottedSuffix d2 d1).mp hsub2]
      · have n1 : ¬ strictDottedSuffix d1 d2 := fun hx =>
          hsub1 ((isSubdomainOf_iff_strictDottedSuffix d1 d2).mpr hx)
        have n2 : ¬ strictDottedSuffix d2 d1 := fun hx =>
          hsub2 ((isSubdomainOf_iff_strictDottedSuffix d2 d1).mpr hx)
        simp [heq, hsub1, hsub2, n1, n2, beq_iff_eq]

theorem domainsMatch_characterization_witness :
    domainsMatch "sub.example.com" "example.com" = true ↔
      ("sub.example.com" = "example.com" ∨
       strictDottedSuffix "sub.example.com" "example.com" ∨
       strictDottedSuffix "example.com" "sub.example.com" ∨
       extractRootDomain "sub.example.com" = extractRootDomain "example.com") :=
  domainsMatch_characterization.1 "sub.example.com" "example.com"
    (by decide) (by decide)

theorem portsEqual_of_ignore (p1 p2 : Option String) : portsEqual true p1 p2 = true := by
  simp [portsEqual]

/-- C2: with the spec-modelled `ignore_port` input set to true, port
equality is forced, so any credential URL whose extracted domain equals the
current domain yields the best sub-priority (Sub-1) no matter the ports, and
Sub-2 becomes unreachable; concretely, the same-host/different-ports data
set that matches only the portless credential under `ignore_port = false`
matches all three credentials at priority 2 under `ignore_port = true`. -/
theorem ignorePort_collapses_sub1_and_sub2 :
    (∀ (currentInfo : DomainWithPort) (enableSub : Bool) (best : Option Nat)
       (urls : List String),
       (∃ u ∈ urls, ¬ u.isEmpty = true ∧
          (extractDomainWithPort u).domain = currentInfo.domain ∧
          ¬ (extractDomainWithPort u).domain.isEmpty = true) →
       credBestPriority currentInfo enableSub true best urls = some 1) ∧
    (∀ (currentInfo : DomainWithPort) (enableSub : Bool) (best : Option Nat)
       (urls : List String), best ≠ some 2 →
       credBestPriority currentInfo enableSub true best urls ≠ some 2) ∧
    (filterCredentials (c2Input false)).matched_ids = ["c"] ∧
    (filterCredentials (c2Input false)).matched_priority = 2 ∧
    (filterCredentials (c2Input true)).matched_ids = ["a", "b", "c"] ∧
    (filterCredentials (c2Input true)).matched_priority = 2 := by
  refine ⟨?_, ?_, rfl, rfl, rfl, rfl⟩
  · intro currentInfo enableSub best urls h
    induction urls generalizing best with
    | nil =>
      obtain ⟨u, hu, _⟩ := h
      exact absurd hu (List.not_mem_nil u)
    | cons u rest ih =>
      obtain ⟨w, hw, hwne, hwdom, hwdomne⟩ := h
      simp only [credBestPriority]
      by_cases hu : u.isEmpty = true
      · rw [if_pos hu]
        apply ih
        rcases List.mem_cons.mp hw with hwu | hwr
        · subst hwu; exact absurd hu hwne
        · exact ⟨w, hwr, hwne, hwdom, hwdomne⟩
      · rw [if_neg hu]
        by_cases hd : (extractDomainWithPort u).domain.isEmpty = true
        · rw [if_pos hd]
          apply ih
          rcases List.mem_cons.mp hw with hwu | hwr
          · subst hwu; exact absurd hd hwdomne
          · exact ⟨w, hwr, hwne, hwdom, hwdomne⟩
        · rw [if_neg hd]
          by_cases he : currentInfo.domain = (extractDomainWithPort u).domain
          · have hcond : (currentInfo.domain == (extractDomainWithPort u).domain &&
                portsEqual true currentInfo.port (extractDomainWithPort u).port) = true := by
              rw [portsEqual_of_ignore]
              simp [he]
            rw [if_pos hcond]
          · have hcond : (currentInfo.domain == (extractDomainWithPort u).domain &&
                portsEqual true currentInfo.port (extractDomainWithPort u).port) = false := by
              have : (currentInfo.domain == (extractDomainWithPort u).domain) = false := by
                simp [he]
              simp [this]
            rw [if_neg (by simp [hcond])]
            apply ih
            rcases List.mem_cons.mp hw with hwu | hwr
            · subst hwu; exact absurd hwdom.symm he
            · exact ⟨w, hwr, hwne, hwdom, hwdomne⟩
  · intro currentInfo enableSub best urls hb
    induction urls generalizing best with
    | nil => simpa [credBestPriority] using hb
    | cons u rest ih =>
      simp only [credBestPriority]
      by_cases hu : u.isEmpty = true
      · rw [if_pos hu]; exact ih best hb
      · rw [if_neg hu]
        by_cases hd : (extractDomainWithPort u).domain.isEmpty = true
        · rw [if_pos hd]; exact ih best hb
        · rw [if_neg hd]
          by_cases hc : (currentInfo.domain == (extractDomainWithPort u).domain &&
              portsEqual true currentInfo.port (extractDomainWithPort u).port) = true
          · rw [if_pos hc]
            simp
          · rw [if_neg (by simp [hc])]
            have hdom : (currentInfo.domain == (extractDomainWithPort u).domain) = false := by
              cases hx : (currentInfo.domain == (extractDomainWithPort u).domain) with
              | false => rfl
              | true =>
                rw [hx, portsEqual_of_ignore] at hc
                exact absurd rfl hc
            rw [hdom]
            simp only [Bool.false_and, Bool.false_eq_true, if_false]
            by_cases h3 : (enableSub && domainsMatch currentInfo.domain
                (extractDomainWithPort u).domain && (best == none)) = true
            · rw [if_pos h3]
              exact ih (some 3) (by simp)
            · rw [if_neg (by simp [h3])]
              exact ih best hb

theorem ignorePort_collapses_sub1_and_sub2_witness :
    credBestPriority (extractDomainWithPort "https://myserver.local/home") true true
      none ["https://myserver.local:8080"] = some 1 :=
  ignorePort_collapses_sub1_and_sub2.1
    (extractDomainWithPort "https://myserver.local/home") true none
    ["https://myserver.local:8080"]
    ⟨"https://myserver.local:8080", by simp, by decide, by decide, by decide⟩

/-- C6: with hex-decodable inputs, the client `srp_derive_session` fails
with `InvalidParameter` exactly when `B mod N = 0` (and succeeds otherwise),
and the server `srp_derive_session_server` fails with `InvalidParameter`
exactly when `A mod N = 0`; past that check it never errors: a client-proof
mismatch is the successful outcome `Ok(None)`, and on a match it returns
`Ok(Some(session))` whose proof is `M2 = SHA256(A_pad ++ M1 ++ K)`. -/
theorem srp_session_error_taxonomy :
    (∀ (group : SrpGroup) (cs sp salt identity pk : String) (a b sB xB : List Nat),
       hexToBytes cs = .ok a → hexToBytes sp = .ok b →
       hexToBytes salt = .ok sB → hexToBytes pk = .ok xB →
       ((srpDeriveSession group cs sp salt identity pk =
           .error (.InvalidParameter "server public ephemeral is invalid")) ↔
         natFromBytesBE b % group.n = 0) ∧
       (natFromBytesBE b % group.n ≠ 0 →
         ∃ s, srpDeriveSession group cs sp salt identity pk = .ok s)) ∧
    (∀ (group : SrpGroup) (ss cp salt identity v m1 : String)
       (b aPub sB vB clientM1 : List Nat),
       hexToBytes ss = .ok b → hexToBytes cp = .ok aPub →
       hexToBytes salt = .ok sB → hexToBytes v = .ok vB →
       hexToBytes m1 = .ok clientM1 →
       ((srpDeriveSessionServer group ss cp salt identity v m1 =
           .error (.InvalidParameter "client public ephemeral is invalid")) ↔
         natFromBytesBE aPub % group.n = 0) ∧
       (natFromBytesBE aPub % group.n ≠ 0 →
         ((srpDeriveSessionServer group ss cp salt identity v m1 = .ok none) ↔
           ¬ (serverKeyAndM1 group b aPub sB vB identity).2 = clientM1) ∧
         ((serverKeyAndM1 group b aPub sB vB identity).2 = clientM1 →
           srpDeriveSessionServer group ss cp salt identity v m1 =
             .ok (some { proof := bytesToHex (sha256 (padToLength aPub 256 ++ clientM1 ++
                           (serverKeyAndM1 group b aPub sB vB identity).1))
                         key := bytesToHex (serverKeyAndM1 group b aPub sB vB identity).1 })))) := by
  constructor
  · intro group cs sp salt identity pk a b sB xB h1 h2 h3 h4
    by_cases hz : natFromBytesBE b % group.n = 0
    · constructor
      · simp [srpDeriveSession, h1, h2, h3, h4, hz]
      · intro hnz
        exact absurd hz hnz
    · constructor
      · simp [srpDeriveSession, h1, h2, h3, h4, hz]
      · intro _
        simp only [srpDeriveSession, h1, h2, h3, h4]
        rw [if_neg (by simp [hz])]
        exact ⟨_, rfl⟩
  · intro group ss cp salt identity v m1 b aPub sB vB clientM1 h1 h2 h3 h4 h5
    by_cases hz : natFromBytesBE aPub % group.n = 0
    · constructor
      · simp [srpDeriveSessionServer, h1, h2, h3, h4, h5, hz]
      · intro hnz
        exact absurd hz hnz
    · constructor
      · simp only [srpDeriveSessionServer, h1, h2, h3, h4, h5]
        rw [if_neg (by simp [hz])]
        constructor
        · intro hcontra
          split at hcontra <;> simp at hcontra
        · intro hcontra
          exact absurd hcontra hz
      · intro _
        constructor
        · by_cases hm : (serverKeyAndM1 group b aPub sB vB identity).2 = clientM1
          · simp [srpDeriveSessionServer, h1, h2, h3, h4, h5, hz, hm]
          · simp [srpDeriveSessionServer, h1, h2, h3, h4, h5, hz, hm]
        · intro hm
          simp [srpDeriveSessionServer, h1, h2, h3, h4, h5, hz, hm, computeM2,
                List.append_assoc]

theorem srp_session_error_taxonomy_witness :
    (srpDeriveSession { n := 7, g := 2 } "05" "07" "0A" "user" "03" =
       .error (.InvalidParameter "server public ephemeral is invalid")) ∧
    (∃ s, srpDeriveSession { n := 7, g := 2 } "05" "03" "0A" "user" "03" = .ok s) ∧
    ((srpDeriveSessionServer { n := 7, g := 2 } "05" "03" "0A" "user" "02" "00" = .ok none) ↔
      ¬ (serverKeyAndM1 { n := 7, g := 2 } [5] [3] [10] [2] "user").2 = [0]) := by
  refine ⟨?_, ?_, ?_⟩
  · exact ((srp_session_error_taxonomy.1 { n := 7, g := 2 } "05" "07" "0A" "user" "03"
      [5] [7] [10] [3] rfl rfl rfl rfl).1).mpr (by decide)
  · exact (srp_session_error_taxonomy.1 { n := 7, g := 2 } "05" "03" "0A" "user" "03"
      [5] [3] [10] [3] rfl rfl rfl rfl).2 (by decide)
  · exact ((srp_session_error_taxonomy.2 { n := 7, g := 2 } "05" "03" "0A" "user" "02" "00"
      [5] [3] [10] [2] [0] rfl rfl rfl rfl rfl).2 (by decide)).1

theorem optTsGt_irrefl (a : Option Int) : optTsGt a a = false := by
  cases a <;> simp [optTsGt]

theorem optTsGt_false_of_gt_of_not_gt {r ex r' : Option Int}
    (h1 : optTsGt r ex = true) (h2 : optTsGt r' ex = false) :
    optTsGt r' r = false := by
  cases r <;> cases ex <;> cases r' <;> simp [optTsGt] at h1 h2 ⊢ <;> omega

theorem mapGet_nil (k : String) : mapGet [] k = none := rfl

theorem mapGet_cons (p : String × VRecord) (rest : RecMap) (k : String) :
    mapGet (p :: rest) k = if p.1 == k then some p.2 else mapGet rest k := by
  simp only [mapGet, List.find?]
  cases hp : (p.1 == k) <;> simp [hp]

theorem mapGet_replace_ne (m : RecMap) (k k' : String) (v : VRecord) (h : k' ≠ k) :
    mapGet (m.map (fun p => if p.1 == k then (k, v) else p)) k' = mapGet m k' := by
  induction m with
  | nil => rfl
  | cons p rest ih =>
    by_cases hp : (p.1 == k) = true
    · simp only [List.map_cons, if_pos hp, mapGet_cons]
      have h1 : (k == k') = false := by
        simp only [beq_eq_false_iff_ne]
        exact fun hx => h hx.symm
      have h2 : (p.1 == k') = false := by
        simp only [beq_eq_false_iff_ne]
        intro hx
        exact h (hx ▸ (beq_iff_eq.mp hp))
      rw [h1, h2]
      simp only [Bool.false_eq_true, if_false]
      exact ih
    · simp only [List.map_cons, if_neg hp, mapGet_cons]
      cases hq : (p.1 == k') with
      | true => rfl
      | false =>
        simp only [Bool.false_eq_true, if_false]
        exact ih

theorem mapGet_replace_self (m : RecMap) (k : String) (v : VRecord)
    (h : m.any (fun p => p.1 == k) = true) :
    mapGet (m.map (fun p => if p.1 == k then (k, v) else p)) k = some v := by
  induction m with
  | nil => simp at h
  | cons p rest ih =>
    by_cases hp : (p.1 == k) = true
    · simp only [List.map_cons, if_pos hp, mapGet_cons]
      simp
    · simp only [List.map_cons, if_neg hp, mapGet_cons]
      apply ih
      simp only [List.any_cons] at h
      cases hq : (p.1 == k) with
      | true => exact absurd hq hp
      | false => rw [hq] at h; simpa using h

theorem mapGet_append_single (m : RecMap) (k k' : String) (v : VRecord)
    (h : m.any (fun p => p.1 == k) = false) :
    mapGet (m ++ [(k, v)]) k' = if k' = k then some v else mapGet m k' := by
  induction m with
  | nil =>
    simp only [List.nil_append, mapGet_cons, mapGet_nil]
    by_cases hk : k' = k
    · rw [if_pos (by simpa using hk.symm), if_pos hk]
    · rw [if_neg (by simpa using fun hx : k = k' => hk hx.symm), if_neg hk]
  | cons p rest ih =>
    simp only [List.any_cons, Bool.or_eq_false_iff] at h
    simp only [List.cons_append, mapGet_cons]
    cases hq : (p.1 == k') with
    | true =>
      have hne : ¬ k' = k := by
        intro hx
        subst hx
        exact absurd hq (by simpa using h.1)
      rw [if_neg hne]
      exact rfl
    | false =>
      simp only [Bool.false_eq_true, if_false]
      rw [ih h.2]

theorem mapGet_mapInsert (m : RecMap) (k k' : String) (v : VRecord) :
    mapGet (mapInsert m k v) k' = if k' = k then some v else mapGet m k' := by
  unfold mapInsert
  cases hany : m.any (fun p => p.1 == k) with
  | true =>
    rw [if_pos rfl]
    by_cases hk : k' = k
    · subst hk
      rw [if_pos rfl]
      exact mapGet_replace_self m k' v hany
    · rw [if_neg hk]
      exact mapGet_replace_ne m k k' v hk
  | false =>
    rw [if_neg (by simp)]
    exact mapGet_append_single m k k' v hany

theorem compositeDedup_invariant (keyColumns : List String) :
    ∀ (l seen : List VRecord) (m : RecMap),
      (∀ key r, mapGet m key = some r →
        r ∈ seen ∧ getCompositeKey r keyColumns = key ∧
        ∀ r' ∈ seen, getCompositeKey r' keyColumns = key →
          optTsGt (getUpdatedAt r') (getUpdatedAt r) = false) →
      (∀ r' ∈ seen, mapGet m (getCompositeKey r' keyColumns) ≠ none) →
      ∀ key r, mapGet (l.foldl (compositeDedupStep keyColumns) m) key = some r →
        r ∈ seen ++ l ∧ getCompositeKey r keyColumns = key ∧
        ∀ r' ∈ seen ++ l, getCompositeKey r' keyColumns = key →
          optTsGt (getUpdatedAt r') (getUpdatedAt r) = false := by
  intro l
  induction l with
  | nil =>
    intro seen m Hm Hk key r hget
    simpa using Hm key r hget
  | cons x rest ih =>
    intro seen m Hm Hk key r hget
    simp only [List.foldl_cons] at hget
    have Hm' : ∀ key' r'', mapGet (compositeDedupStep keyColumns m x) key' = some r'' →
        r'' ∈ seen ++ [x] ∧ getCompositeKey r'' keyColumns = key' ∧
        ∀ r' ∈ seen ++ [x], getCompositeKey r' keyColumns = key' →
          optTsGt (getUpdatedAt r') (getUpdatedAt r'') = false := by
      intro key' r'' hg
      simp only [compositeDedupStep] at hg
      cases hex : mapGet m (getCompositeKey x keyColumns) with
      | some existing =>
        rw [hex] at hg
        simp only at hg
        by_cases hgt : optTsGt (getUpdatedAt x) (getUpdatedAt existing) = true
        · rw [if_pos hgt, mapGet_mapInsert] at hg
          by_cases hkk : key' = getCompositeKey x keyColumns
          · rw [if_pos hkk] at hg
            injection hg with hg
            subst hg
            refine ⟨List.mem_append_right _ (List.mem_singleton.mpr rfl), hkk.symm, ?_⟩
            intro r' hr' hkr'
            rcases List.mem_append.mp hr' with hseen | hx
            · have h3 := (Hm (getCompositeKey x keyColumns) existing hex).2.2 r' hseen
                (by rw [hkr', hkk])
              exact optTsGt_false_of_gt_of_not_gt hgt h3
            · have hrx : r' = x := List.mem_singleton.mp hx
              subst hrx
              exact optTsGt_irrefl _
          · rw [if_neg hkk] at hg
            obtain ⟨hmem, hkey, hall⟩ := Hm key' r'' hg
            refine ⟨List.mem_append_left _ hmem, hkey, ?_⟩
            intro r' hr' hkr'
            rcases List.mem_append.mp hr' with hseen | hx
            · exact hall r' hseen hkr'
            · have hrx : r' = x := List.mem_singleton.mp hx
              subst hrx
              exact absurd hkr'.symm hkk
        · rw [if_neg hgt] at hg
          obtain ⟨hmem, hkey, hall⟩ := Hm key' r'' hg
          refine ⟨List.mem_append_left _ hmem, hkey, ?_⟩
          intro r' hr' hkr'
          rcases List.mem_append.mp hr' with hseen | hx
          · exact hall r' hseen hkr'
          · have hrx : r' = x := List.mem_singleton.mp hx
            subst hrx
            have hke : key' = getCompositeKey r' keyColumns := hkr'.symm
            rw [hke, hex] at hg
            injection hg with hg
            subst hg
            simpa using hgt
      | none =>
        rw [hex] at hg
        simp only at hg
        rw [mapGet_mapInsert] at hg
        by_cases hkk : key' = getCompositeKey x keyColumns
        · rw [if_pos hkk] at hg
          injection hg with hg
          subst hg
          refine ⟨List.mem_append_right _ (List.mem_singleton.mpr rfl), hkk.symm, ?_⟩
          intro r' hr' hkr'
          rcases List.mem_append.mp hr' with hseen | hx
          · have : mapGet m (getCompositeKey r' keyColumns) = none := by
              rw [hkr', hkk]
              exact hex
            exact absurd this (Hk r' hseen)
          · have hrx : r' = x := List.mem_singleton.mp hx
            subst hrx
            exact optTsGt_irrefl _
        · rw [if_neg hkk] at hg
          obtain ⟨hmem, hkey, hall⟩ := Hm key' r'' hg
          refine ⟨List.mem_append_left _ hmem, hkey, ?_⟩
          intro r' hr' hkr'
          rcases List.mem_append.mp hr' with hseen | hx
          · exact hall r' hseen hkr'
          · have hrx : r' = x := List.mem_singleton.mp hx
            subst hrx
            exact absurd hkr'.symm hkk
    have Hk' : ∀ r' ∈ seen ++ [x],
        mapGet (compositeDedupStep keyColumns m x) (getCompositeKey r' keyColumns) ≠ none := by
      intro r' hr'
      simp only [compositeDedupStep]
      cases hex : mapGet m (getCompositeKey x keyColumns) with
      | some existing =>
        simp only
        by_cases hgt : optTsGt (getUpdatedAt x) (getUpdatedAt existing) = true
        · rw [if_pos hgt, mapGet_mapInsert]
          by_cases hkk : getCompositeKey r' keyColumns = getCompositeKey x keyColumns
          · rw [if_pos hkk]; simp
          · rw [if_neg hkk]
            rcases List.mem_append.mp hr' with hseen | hx
            · exact Hk r' hseen
            · have hrx : r' = x := List.mem_singleton.mp hx
              subst hrx
              exact absurd rfl hkk
        · rw [if_neg hgt]
          rcases List.mem_append.mp hr' with hseen | hx
          · exact Hk r' hseen
          · have hrx : r' = x := List.mem_singleton.mp hx
            subst hrx
            rw [hex]
            simp
      | none =>
        simp only
        rw [mapGet_mapInsert]
        by_cases hkk : getCompositeKey r' keyColumns = getCompositeKey x keyColumns
        · rw [if_pos hkk]; simp
        · rw [if_neg hkk]
          rcases List.mem_append.mp hr' with hseen | hx
          · exact Hk r' hseen
          · have hrx : r' = x := List.mem_singleton.mp hx
            subst hrx
            exact absurd rfl hkk
    obtain ⟨hmem, hkey, hall⟩ := ih (seen ++ [x]) (compositeDedupStep keyColumns m x)
      Hm' Hk' key r hget
    refine ⟨?_, hkey, ?_⟩
    · simpa [List.append_assoc] using hmem
    · intro r' hr' hkr'
      apply hall
      · simpa [List.append_assoc] using hr'
      · exact hkr'

/-- C8: `FieldValues` is configured with the composite key
`["ItemId", "FieldKey"]` and the composite key is the colon-joined column
values; among server records sharing a composite key the kept one is maximal
in `UpdatedAt` (Rust `Option` order, `None` lowest); and when the kept server
record is strictly newer than the matched local record the emitted statement
is `generate_update_sql` of the SERVER record keyed by the LOCAL `Id` — an
UPDATE setting every server column except `Id` with `WHERE Id = <local id>`
(the local `Id` as last parameter). -/
theorem compositeKey_merge_semantics :
    ((⟨"FieldValues", ["ItemId", "FieldKey"]⟩ : TableConfig) ∈ SYNCABLE_TABLES) ∧
    (∀ r : VRecord, getCompositeKey r ["ItemId", "FieldKey"] =
       (((recordGet r "ItemId").bind JsonValue.asStr).getD "") ++ ":" ++
       (((recordGet r "FieldKey").bind JsonValue.asStr).getD "")) ∧
    (∀ (records : List VRecord) (keyColumns : List String) (key : String) (r : VRecord),
       mapGet (buildServerMapByCompositeKey records keyColumns) key = some r →
       r ∈ records ∧ getCompositeKey r keyColumns = key ∧
       ∀ r' ∈ records, getCompositeKey r' keyColumns = key →
         optTsGt (getUpdatedAt r') (getUpdatedAt r) = false) ∧
    (∀ (tableName localId : String) (keyColumns : List String) (acc : MergeAcc)
       (localRecord serverRecord : VRecord) (sTs lTs : Int),
       getRecordId localRecord = some localId →
       mapGet acc.serverMap (getCompositeKey localRecord keyColumns) = some serverRecord →
       getUpdatedAt serverRecord = some sTs → getUpdatedAt localRecord = some lTs →
       lTs < sTs →
       (mergeByCompositeStep tableName keyColumns acc localRecord).statements =
         acc.statements ++ (generateUpdateSql tableName serverRecord localId).toList) ∧
    (∀ (tableName : String) (record : VRecord) (id : String) (stmt : SqlStatement),
       generateUpdateSql tableName record id = some stmt →
       ∃ columns : List String,
         columns.Perm ((recordKeys record).filter (fun c => c != "Id")) ∧
         stmt.sql = "UPDATE " ++ tableName ++ " SET " ++
           String.intercalate ", " (columns.map (fun c => c ++ " = ?")) ++ " WHERE Id = ?" ∧
         stmt.params = columns.map (fun c => (recordGet record c).getD JsonValue.null) ++
           [JsonValue.str id]) := by
  refine ⟨List.Mem.tail _ (List.Mem.head _), ?_, ?_, ?_, ?_⟩
  · intro r
    simp [getCompositeKey, String.intercalate, String.intercalate.go]
  · intro records keyColumns key r hget
    have h := compositeDedup_invariant keyColumns records [] []
      (fun key r hg => by rw [mapGet_nil] at hg; exact absurd hg (by simp))
      (fun r' hr' => absurd hr' (List.not_mem_nil r'))
      key r hget
    simpa using h
  · intro tableName localId keyColumns acc localRecord serverRecord sTs lTs
      hid hmap hs hl hlt
    have hw : serverWins (getUpdatedAt serverRecord) (getUpdatedAt localRecord) = true :=
      serverWins_eq_true_iff.mpr ⟨sTs, lTs, hs, hl, hlt⟩
    unfold mergeByCompositeStep
    rw [hid]
    simp only [hmap, hw, if_true]
  · intro tableName record id stmt h
    unfold generateUpdateSql at h
    by_cases he : recordIsEmpty record = true
    · rw [if_pos he] at h
      exact absurd h (by simp)
    · rw [if_neg he] at h
      simp only at h
      by_cases hc : (sortStr ((recordKeys record).filter (fun c => c != "Id"))).isEmpty = true
      · rw [if_pos hc] at h
        exact absurd h (by simp)
      · rw [if_neg hc] at h
        injection h with h
        subst h
        exact ⟨sortStr ((recordKeys record).filter (fun c => c != "Id")),
          sortStr_perm _, rfl, rfl⟩

theorem compositeKey_merge_semantics_witness :
    (c78ServerRecord ∈ [c78EqServerRecord, c78ServerRecord] ∧
     getCompositeKey c78ServerRecord ["ItemId", "FieldKey"] = "i1:k1" ∧
     ∀ r' ∈ [c78EqServerRecord, c78ServerRecord],
       getCompositeKey r' ["ItemId", "FieldKey"] = "i1:k1" →
       optTsGt (getUpdatedAt r') (getUpdatedAt c78ServerRecord) = false) ∧
    (mergeByCompositeStep "FieldValues" ["ItemId", "FieldKey"]
        { statements := [], stats := {}, serverMap := [("i1:k1", c78ServerRecord)] }
        c78LocalRecord).statements =
      [] ++ (generateUpdateSql "FieldValues" c78ServerRecord "local-id").toList ∧
    (∃ columns : List String,
       columns.Perm ((recordKeys c78ServerRecord).filter (fun c => c != "Id")) ∧
       ("UPDATE FieldValues SET FieldKey = ?, ItemId = ?, UpdatedAt = ?, Value = ? WHERE Id = ?") =
         "UPDATE " ++ "FieldValues" ++ " SET " ++
           String.intercalate ", " (columns.map (fun c => c ++ " = ?")) ++ " WHERE Id = ?" ∧
       ([JsonValue.str "k1", JsonValue.str "i1", JsonValue.str "2024-01-02T00:00:00Z",
         JsonValue.str "new", JsonValue.str "local-id"]) =
         columns.map (fun c => (recordGet c78ServerRecord c).getD JsonValue.null) ++
           [JsonValue.str "local-id"]) := by
  refine ⟨?_, ?_, ?_⟩
  · exact compositeKey_merge_semantics.2.2.1 [c78EqServerRecord, c78ServerRecord]
      ["ItemId", "FieldKey"] "i1:k1" c78ServerRecord rfl
  · exact compositeKey_merge_semantics.2.2.2.1 "FieldValues" "local-id"
      ["ItemId", "FieldKey"]
      { statements := [], stats := {}, serverMap := [("i1:k1", c78ServerRecord)] }
      c78LocalRecord c78ServerRecord 1704153600000000000 1704067200000000000
      rfl rfl rfl rfl (by decide)
  · have h := compositeKey_merge_semantics.2.2.2.2 "FieldValues" c78ServerRecord "local-id"
      { sql := "UPDATE FieldValues SET FieldKey = ?, ItemId = ?, UpdatedAt = ?, Value = ? WHERE Id = ?"
        params := [JsonValue.str "k1", JsonValue.str "i1",
                   JsonValue.str "2024-01-02T00:00:00Z", JsonValue.str "new",
                   JsonValue.str "local-id"] } (by rfl)
    obtain ⟨columns, hp, hs, hpar⟩ := h
    exact ⟨columns, hp, hs, hpar⟩

theorem isDeletedTruthy_eq_spec : isDeletedTruthy = specDeletedTruthy := by
  funext item
  unfold isDeletedTruthy specDeletedTruthy
  cases h : recordGet item "IsDeleted" with
  | none => rfl
  | some v => cases v <;> simp [JsonValue.asI64, JsonValue.asBool]

theorem expiredItemId_eq_spec : expiredItemId = specExpiredId := by
  funext cutoffDate item
  unfold expiredItemId specExpiredId
  rw [isDeletedTruthy_eq_spec]
  by_cases ht : specDeletedTruthy item = true
  · simp only [if_pos ht]
    split <;> simp_all
  · simp only [if_neg ht]
    cases hd : recordGet item "DeletedAt" with
    | none =>
      simp only [hd, Option.bind]
      split <;> simp_all
    | some dv =>
      cases dv with
      | str s =>
        simp only [hd, JsonValue.isNull, JsonValue.asStr, Option.bind_some,
          Bool.false_eq_true, if_false]
        cases hp : Datetime.parseDatetime s with
        | none =>
          simp only [hp]
          split <;> simp_all
        | some d =>
          simp only [hp]
          by_cases hlt : d < cutoffDate
          · simp only [if_pos hlt]
            split <;> simp_all
          · simp only [if_neg hlt]
            split
            · simp_all
            · simp [hp, hlt]
      | null =>
        simp only [hd, JsonValue.isNull, JsonValue.asStr, Option.bind_some]
        split <;> ((try split) <;> simp_all)
      | num n =>
        simp only [hd, JsonValue.isNull, JsonValue.asStr, Option.bind_some,
          Bool.false_eq_true, if_false]
        split <;> simp_all
      | bool b =>
        simp only [hd, JsonValue.isNull, JsonValue.asStr, Option.bind_some,
          Bool.false_eq_true, if_false]
        split <;> simp_all
      | arr es =>
        simp only [hd, JsonValue.isNull, JsonValue.asStr, Option.bind_some,
          Bool.false_eq_true, if_false]
        split <;> simp_all
      | obj fs =>
        simp only [hd, JsonValue.isNull, JsonValue.asStr, Option.bind_some,
          Bool.false_eq_true, if_false]
        split <;> simp_all

theorem countRelated_pos_iff (records : List VRecord) (fkValue : String) :
    (0 < countRelatedRecords records "ItemId" fkValue) ↔
      records.any (fun r =>
        ((recordGet r "ItemId").bind JsonValue.asStr == some fkValue) &&
        !(specDeletedTruthy r)) = true := by
  unfold countRelatedRecords
  have hpred : (fun (r : VRecord) =>
      (match (recordGet r "ItemId").bind JsonValue.asStr with
        | some v => v == fkValue
        | none => false) &&
      (match recordGet r "IsDeleted" with
        | some v => v.asI64 != some 1 && v.asBool != some true
        | none => true)) =
      (fun (r : VRecord) =>
        ((recordGet r "ItemId").bind JsonValue.asStr == some fkValue) &&
        !(specDeletedTruthy r)) := by
    funext r
    congr 1
    · cases h : (recordGet r "ItemId").bind JsonValue.asStr <;> simp
    · unfold specDeletedTruthy
      cases h : recordGet r "IsDeleted" with
      | none => rfl
      | some v => cases v <;> simp [JsonValue.asI64, JsonValue.asBool, bne, Bool.and_true]
  rw [hpred, List.length_pos, Ne, List.filter_eq_nil_iff, List.any_eq_true]
  constructor
  · intro h
    by_contra hno
    push_neg at hno
    exact h (fun a ha => by
      intro hp
      exact absurd hp (by simpa using hno a ha))
  · rintro ⟨x, hx, hpx⟩ hnil
    exact absurd hpx (by simpa using hnil x hx)

theorem pruneChildTable_stmts_eq_spec (tables : List TableData)
    (tableName nowStr itemId : String) :
    (pruneChildTable tables tableName nowStr itemId).1 =
      specChildStmt tables tableName nowStr itemId := by
  unfold pruneChildTable specChildStmt
  cases h : findTable tables tableName with
  | none => rfl
  | some t =>
    simp only
    by_cases hr : countRelatedRecords t.records "ItemId" itemId > 0
    · rw [if_pos hr, if_pos ((countRelated_pos_iff t.records itemId).mp hr)]
    · rw [if_neg hr, if_neg (fun ha => hr ((countRelated_pos_iff t.records itemId).mpr ha))]

theorem pruneItemBlock_eq_spec : pruneItemBlock = specPruneBlock := by
  funext tables nowStr itemId
  unfold pruneItemBlock specPruneBlock
  rw [pruneChildTable_stmts_eq_spec, pruneChildTable_stmts_eq_spec,
      pruneChildTable_stmts_eq_spec, pruneChildTable_stmts_eq_spec]

theorem pruneFold_statements (tables : List TableData) (nowStr : String) :
    ∀ (ids : List String) (S : List SqlStatement) (st : PruneStats),
      (ids.foldl (pruneOneItem tables nowStr) (S, st)).1 =
        S ++ ids.flatMap (pruneItemBlock tables nowStr) := by
  intro ids
  induction ids with
  | nil =>
    intro S st
    simp
  | cons id rest ih =>
    intro S st
    rw [List.foldl_cons, List.flatMap_cons]
    have hstep : pruneOneItem tables nowStr (S, st) id =
        ((S ++ pruneItemBlock tables nowStr id),
         (pruneOneItem tables nowStr (S, st) id).2) := by
      unfold pruneOneItem pruneItemBlock
      simp [List.append_assoc]
    rw [hstep, ih]
    simp [List.append_assoc]

/-- C9 counterexample: an item whose `IsDeleted` is the integer 2 — neither
0, false nor absent, so not "falsey" as the claim defines it — still
generates pruning statements (the original iff is false on the code). -/
theorem pruner_nonfalsey_isDeleted_counterexample :
    recordGet c9Item "IsDeleted" = some (JsonValue.num 2) ∧
    (pruneOk c9Input).map (fun o => o.statements.map (fun s => s.sql)) =
      some ["UPDATE Items SET IsDeleted = 1, UpdatedAt = ? WHERE Id = ?"] ∧
    (pruneOk c9Input).map (fun o => o.stats.items_pruned) = some 1 :=
  ⟨rfl, rfl, rfl⟩

/-- C9 amended: when `current_time` parses and an `Items` table is present,
the emitted statements are exactly, in order, one block per item that has a
string `Id`, whose `IsDeleted` is NOT truthy (neither integer 1 nor boolean
true; any other value — not just 0/false/absent — counts as falsey) and
whose `DeletedAt` parses strictly before `current_time − retention_days`;
each block starts with the `Items` UPDATE carrying the caller's time
normalised to `YYYY-MM-DDTHH:MM:SS.mmmZ`, followed by one UPDATE per related
table (`FieldValues`, `Attachments`, `TotpCodes`, `Passkeys`) present in the
input with at least one non-deleted record matching the item's `ItemId`. -/
theorem pruner_statement_characterization (input : PruneInput) (now : Int)
    (itemsTable : TableData)
    (hparse : Datetime.parseDatetime input.current_time = some now)
    (hfind : findTable input.tables "Items" = some itemsTable) :
    (pruneOk input).map (fun o => o.statements) =
      some ((itemsTable.records.filterMap
          (specExpiredId (now - (Int.ofNat input.retention_days) * Datetime.nanosPerDay))).flatMap
        (specPruneBlock input.tables (Datetime.formatMillisZ now))) := by
  unfold pruneOk pruneVault
  rw [hparse, hfind]
  simp only
  rw [← expiredItemId_eq_spec, ← pruneItemBlock_eq_spec]
  by_cases he : (itemsTable.records.filterMap
      (expiredItemId (now - (Int.ofNat input.retention_days) * Datetime.nanosPerDay))).isEmpty = true
  · rw [if_pos he]
    have hnil : itemsTable.records.filterMap
        (expiredItemId (now - (Int.ofNat input.retention_days) * Datetime.nanosPerDay)) = [] :=
      List.isEmpty_iff.mp he
    rw [hnil]
    rfl
  · rw [if_neg he]
    simp only [Except.toOption, Option.map]
    rw [pruneFold_statements]
    rfl

theorem pruner_statement_characterization_witness :
    (pruneOk c9wInput).map (fun o => o.statements) =
      some ((([c9wItem] : List VRecord).filterMap
          (specExpiredId (1717200000000000000 - (Int.ofNat 30) * Datetime.nanosPerDay))).flatMap
        (specPruneBlock c9wInput.tables (Datetime.formatMillisZ 1717200000000000000))) :=
  pruner_statement_characterization c9wInput 1717200000000000000
    { name := "Items", records := [c9wItem] } rfl rfl
